import Mathlib

/-
Verification of the honeybee + honeycomb canvas simulation (Bees.tsx).

This file gives a shallow embedding of the simulation core in Lean 4:
the bee agent state machine (Bee.updateBee, Bee.enterState), the cluster
timing model (HoneycombCluster), the orchestrator cluster-cap and spawn
logic (Hive.getClusterCap, Hive.spawnOneClusterIfAllowed, Hive.handleClick),
the axial hex-grid conversions and the nearest-cell lookup, and the
spatial-hash proximity resolution pass.

Embedding conventions:
  - JavaScript numbers are embedded as exact rationals; frame counters and
    durations as integers.  Math.floor is Int.floor, Math.round is
    jsRound x = Int.floor (x + 1/2), matching JS round-half-up semantics.
  - Transcendental functions (Math.sin, Math.cos, Math.atan2, the simplex
    noise sampler) are opaque oracle parameters: the claims proved here do
    not depend on their values, only on where the source reads them.
  - Comparisons of Math.hypot against a bound are embedded square-free:
    hypot dx dy < t holds exactly when 0 < t and dx*dx + dy*dy < t*t,
    because hypot is nonnegative and strictly monotone in the squared sum.
  - Math.random() draws are universally quantified inputs, one field per
    call site, threaded through each operation.
-/

set_option maxHeartbeats 1000000

/-- Bee animation/state machine modes (enum animationType in the source). -/
inductive AnimationType where
  | idle
  | blocked
  | walk
  | turn
  | flutter
  | takeoff
  | fly
  | land
  | hover
deriving DecidableEq, Repr

/-- Honeycomb cell content categories (enum cellType in the source). -/
inductive CellType where
  | empty
  | pollen
  | honeyFilled
  | honeyCapped
  | broodCell
  | broodCellCapped
  | broodHatching
deriving DecidableEq, Repr

/-- Sticky-feet footprint kind carried by a bee (field stickyKind). -/
inductive StickyKind where
  | pollen
  | honey
deriving DecidableEq, Repr

/-- State of one bee agent: the mutable fields of class Bee that the
simulation logic reads or writes.  Numeric canvas quantities are rationals,
frame counters and durations are integers.  The source field named type
(the bee caste) is omitted because no update logic reads it; the string
targetKey is represented by its underlying axial pair, since the source
only ever builds it from a (q, r) pair by an injective format. -/
structure Bee where
  x : ℚ
  y : ℚ
  z : ℚ
  theta : ℚ
  size : ℚ
  speed : ℚ
  noiseOffset : ℚ
  gaitOffset : ℚ
  flapOffset : ℚ
  hoverAnchorX : ℚ
  hoverAnchorY : ℚ
  hoverRadius : ℚ
  hoverAngleOffset : ℚ
  hoverDirection : ℚ
  prevX : ℚ
  prevY : ℚ
  prevTheta : ℚ
  legsShouldAnimate : Bool
  onGround : Bool
  groundMotion : Bool
  targetX : Option ℚ
  targetY : Option ℚ
  targetKey : Option (ℤ × ℤ)
  targetAge : ℤ
  targetMaxAge : ℤ
  arrivedFrames : ℤ
  animation : AnimationType
  animationFrameCounter : ℤ
  legGaitCounter : ℤ
  wingFlapCounter : ℤ
  stateCounter : ℤ
  stateDuration : ℤ
  minStateFrames : ℤ
  proximityCooldown : ℤ
  trailTick : ℤ
  trailSide : Bool
  stickyAge : ℚ
  stickyKind : Option StickyKind

/-- Opaque oracle for the transcendental functions the source calls.
The embedded logic treats their outputs as uninterpreted rationals. -/
structure Oracle where
  noise : ℚ → ℚ → ℚ
  sinQ : ℚ → ℚ
  cosQ : ℚ → ℚ
  atan2 : ℚ → ℚ → ℚ

/-- Random draws consumed by one Bee.updateBee frame: r and rt are the two
Math.random() calls at the top of the switch; hoverDirDraw is the draw
deciding the hover rotation direction inside enterState, and hoverPhase is
the sampled value of Math.random() * Math.PI * 2 for the hover phase. -/
structure FrameRand where
  r : ℚ
  rt : ℚ
  hoverDirDraw : ℚ
  hoverPhase : ℚ
deriving DecidableEq, Repr

/-- JavaScript Math.round: round half toward positive infinity. -/
def jsRound (x : ℚ) : ℤ := ⌊x + 1 / 2⌋

/-- Square-free embedding of Math.hypot dx dy < t (hypot is nonnegative). -/
def hypotLt (dx dy t : ℚ) : Bool :=
  decide (0 < t) && decide (dx * dx + dy * dy < t * t)

/-- Square-free embedding of Math.hypot dx dy <= t (hypot is nonnegative). -/
def hypotLe (dx dy t : ℚ) : Bool :=
  decide (0 ≤ t) && decide (dx * dx + dy * dy ≤ t * t)

/-- Square-free embedding of Math.hypot dx dy > c (hypot is nonnegative). -/
def hypotGt (dx dy c : ℚ) : Bool :=
  decide (c < 0) || decide (c * c < dx * dx + dy * dy)

/-- Bee.clamp from the source: clamp a value into the unit interval. -/
def clampUnit (v : ℚ) : ℚ := max 0 (min 1 v)

/-- Bee.hasTarget: both target coordinates are defined. -/
def Bee.hasTarget (b : Bee) : Bool := b.targetX.isSome && b.targetY.isSome

/-- Bee.clearTarget: drop the target and reroll targetMaxAge; u is the
Math.random() draw used for the new maximum age. -/
def Bee.clearTarget (u : ℚ) (b : Bee) : Bee :=
  { b with targetX := none, targetY := none, targetKey := none,
           targetAge := 0, arrivedFrames := 0,
           targetMaxAge := ⌊(240 : ℚ) + u * 360⌋ }

/-- Bee.setTarget: assign a new world-space target. -/
def Bee.setTarget (tx ty : ℚ) (key : Option (ℤ × ℤ)) (b : Bee) : Bee :=
  { b with targetX := some tx, targetY := some ty, targetKey := key,
           targetAge := 0, arrivedFrames := 0 }

/-- Bee.shouldRetarget: target too old, or loitering near it too long. -/
def Bee.shouldRetarget (b : Bee) : Bool :=
  decide (b.targetMaxAge < b.targetAge) || decide (90 < b.arrivedFrames)

/-- Bee.enterState from the source: no-op (except duration refresh) when
already in the requested state; otherwise switch state, reset stateCounter
to 0, optionally set the duration, and apply the per-state grace cooldown;
entering hover additionally snapshots the hover anchor and radius and rolls
a rotation direction and phase from the two supplied draws. -/
def Bee.enterState (hoverDirDraw hoverPhase : ℚ) (next : AnimationType)
    (duration : Option ℤ) (b : Bee) : Bee :=
  if next = b.animation then
    match duration with
    | some d => { b with stateDuration := d }
    | none => b
  else
    let b1 : Bee :=
      { b with animation := next, stateCounter := 0,
               stateDuration := duration.getD b.stateDuration }
    match next with
    | AnimationType.flutter => { b1 with proximityCooldown := 30 }
    | AnimationType.takeoff => { b1 with proximityCooldown := 45 }
    | AnimationType.hover =>
        let baseR := max 3 (b.size * 0.15)
        { b1 with proximityCooldown := 30,
                  hoverAnchorX := b.x,
                  hoverAnchorY := b.y,
                  hoverRadius := baseR * (1 + 0.3 * min 2 (max 0 b.z)),
                  hoverDirection := if hoverDirDraw < 0.5 then -1 else 1,
                  hoverAngleOffset := hoverPhase }
    | AnimationType.land => { b1 with proximityCooldown := 20 }
    | _ => b1

/-- Counter bookkeeping at the top of Bee.updateBee: advance the frame,
wing and state counters and decrement the strictly positive dwell and
proximity cooldown counters. -/
def Bee.tickCounters (b : Bee) : Bee :=
  { b with animationFrameCounter := b.animationFrameCounter + 1,
           wingFlapCounter := b.wingFlapCounter + 1,
           stateCounter := b.stateCounter + 1,
           minStateFrames :=
             if 0 < b.minStateFrames then b.minStateFrames - 1 else b.minStateFrames,
           proximityCooldown :=
             if 0 < b.proximityCooldown then b.proximityCooldown - 1 else b.proximityCooldown }

/-- Bee.steerTowardTarget: blend heading toward the bearing to the target
with a mode-dependent gain, track arrival frames against a radius of
1.2 times the bee size, and age the target. -/
def Bee.steerTowardTarget (o : Oracle) (b : Bee) : Bee :=
  match b.targetX, b.targetY with
  | some tx, some ty =>
      let angleToTarget := o.atan2 (ty - b.y) (tx - b.x)
      let angleDiff :=
        o.atan2 (o.sinQ (angleToTarget - b.theta)) (o.cosQ (angleToTarget - b.theta))
      let k : ℚ :=
        if b.z < 0.3 ∧ (b.animation = AnimationType.idle ∨ b.animation = AnimationType.blocked)
          then 0
        else if b.animation = AnimationType.fly ∨ b.animation = AnimationType.walk
          then 0.02
        else 0.01
      let arrived :=
        if hypotLt (tx - b.x) (ty - b.y) (b.size * 1.2)
          then b.arrivedFrames + 1
          else max 0 (b.arrivedFrames - 1)
      { b with theta := b.theta + angleDiff * k,
               arrivedFrames := arrived,
               targetAge := b.targetAge + 1 }
  | _, _ => b

/-- One arm of the Bee.updateBee switch, dispatching on the current
animation mode.  The bee passed in has already had its counters ticked and
steering applied; afc below abbreviates the already-incremented
animationFrameCounter and sc the already-incremented stateCounter, exactly
as the source reads them inside the switch. -/
def Bee.stepState (o : Oracle) (fr : FrameRand) (b : Bee) : Bee :=
  match b.animation with
  | AnimationType.idle =>
      let b2 : Bee := { b with z := 0 }
      let dur : ℤ :=
        if b2.stateCounter = 1 ∨ b2.stateDuration = 0
          then ⌊(60 : ℚ) + fr.rt * 120⌋ else b2.stateDuration
      let b3 : Bee := { b2 with stateDuration := dur, legGaitCounter := 0 }
      if dur ≤ b3.stateCounter then
        if 0.15 < fr.r then
          Bee.enterState fr.hoverDirDraw fr.hoverPhase AnimationType.walk
            (some ⌊(180 : ℚ) + fr.rt * 240⌋) b3
        else if 0.85 < fr.r then
          Bee.enterState fr.hoverDirDraw fr.hoverPhase AnimationType.flutter
            (some ⌊(10 : ℚ) + fr.rt * 5⌋) b3
        else
          Bee.enterState fr.hoverDirDraw fr.hoverPhase AnimationType.turn
            (some ⌊(45 : ℚ) + fr.rt * 60⌋) b3
      else b3
  | AnimationType.blocked =>
      let b2 : Bee := { b with z := 0 }
      let dur : ℤ :=
        if b2.stateCounter = 1 then ⌊(40 : ℚ) + fr.rt * 60⌋ else b2.stateDuration
      let b3 : Bee := { b2 with stateDuration := dur }
      if dur ≤ b3.stateCounter then
        if 0.4 < fr.r then
          Bee.enterState fr.hoverDirDraw fr.hoverPhase AnimationType.turn
            (some ⌊(45 : ℚ) + fr.rt * 60⌋) b3
        else
          Bee.enterState fr.hoverDirDraw fr.hoverPhase AnimationType.takeoff
            (some ⌊(40 : ℚ) + fr.rt * 40⌋) b3
      else b3
  | AnimationType.walk =>
      let b2 : Bee := { b with z := 0 }
      let dur : ℤ :=
        if b2.stateCounter = 1 then ⌊(180 : ℚ) + fr.rt * 240⌋ else b2.stateDuration
      let n := o.noise b2.noiseOffset (b2.animationFrameCounter * 0.004)
      let theta1 := b2.theta + n * 0.05
      let b3 : Bee :=
        { b2 with stateDuration := dur, theta := theta1,
                  x := b2.x + o.cosQ theta1 * b2.speed,
                  y := b2.y + o.sinQ theta1 * b2.speed }
      if 30 < b3.stateCounter ∧ fr.r < 0.005 then
        Bee.enterState fr.hoverDirDraw fr.hoverPhase AnimationType.idle
          (some ⌊(300 : ℚ) + fr.rt * 30⌋) b3
      else if dur ≤ b3.stateCounter then
        if fr.r < 0.1 then
          Bee.enterState fr.hoverDirDraw fr.hoverPhase AnimationType.turn
            (some ⌊(30 : ℚ) + fr.rt * 60⌋) b3
        else if fr.r < 0.15 then
          Bee.enterState fr.hoverDirDraw fr.hoverPhase AnimationType.takeoff
            (some ⌊(40 : ℚ) + fr.rt * 40⌋) b3
        else if fr.r < 0.35 then
          Bee.enterState fr.hoverDirDraw fr.hoverPhase AnimationType.flutter
            (some ⌊(10 : ℚ) + fr.rt * 5⌋) b3
        else
          Bee.enterState fr.hoverDirDraw fr.hoverPhase AnimationType.idle none b3
      else b3
  | AnimationType.turn =>
      let b2 : Bee := { b with z := 0 }
      let n := o.noise b2.noiseOffset (b2.animationFrameCounter * 0.003)
      let turnRate : ℚ := 0.03 * (if b2.z < 0.3 then 1 else 0.4)
      let b3 : Bee :=
        { b2 with theta := b2.theta + n * turnRate,
                  legGaitCounter := if b2.z < 0.3 then b2.legGaitCounter else 0 }
      if b3.stateDuration ≤ b3.stateCounter then
        Bee.enterState fr.hoverDirDraw fr.hoverPhase AnimationType.walk
          (some ⌊(180 : ℚ) + fr.rt * 240⌋) b3
      else b3
  | AnimationType.flutter =>
      let b3 : Bee := { b with z := 0, legGaitCounter := 0 }
      if b3.stateDuration ≤ b3.stateCounter then
        Bee.enterState fr.hoverDirDraw fr.hoverPhase AnimationType.walk
          (some ⌊(120 : ℚ) + fr.rt * 180⌋) b3
      else b3
  | AnimationType.takeoff =>
      let z1 := min 2 (b.z + 0.05)
      let n := o.noise b.noiseOffset (b.animationFrameCounter * 0.004)
      let b3 : Bee := { b with z := z1, theta := b.theta + n * 0.04 }
      if 1.5 ≤ z1 ∨ b3.stateDuration ≤ b3.stateCounter then
        Bee.enterState fr.hoverDirDraw fr.hoverPhase AnimationType.fly
          (some ⌊(240 : ℚ) + fr.rt * 360⌋) b3
      else b3
  | AnimationType.fly =>
      let airSpeed := b.speed * (4.5 + 1.5 * b.z)
      let targetLayer : ℚ := if b.z < 1.25 then 1 else 2
      let b3 : Bee :=
        { b with x := b.x + o.cosQ b.theta * airSpeed,
                 y := b.y + o.sinQ b.theta * airSpeed,
                 z := b.z + (targetLayer - b.z) * 0.05 }
      if b3.stateDuration ≤ b3.stateCounter then
        if 0.5 < fr.r then
          { Bee.enterState fr.hoverDirDraw fr.hoverPhase AnimationType.hover
              (some ⌊(45 : ℚ) + fr.rt * 45⌋) b3 with minStateFrames := 10 }
        else
          { Bee.enterState fr.hoverDirDraw fr.hoverPhase AnimationType.land
              (some ⌊(40 : ℚ) + fr.rt * 40⌋) b3 with minStateFrames := 12 }
      else b3
  | AnimationType.land =>
      let z1 := max 0 (b.z - 0.05)
      let b3 : Bee := { b with z := z1 }
      if z1 ≤ 0 then { b3 with animation := AnimationType.walk } else b3
  | AnimationType.hover =>
      let ang := (b.stateCounter : ℚ) * 0.15 + b.hoverAngleOffset
      let ease : ℚ := min 1 ((b.stateCounter : ℚ) / 10)
      let rr := b.hoverRadius * (0.3 + 0.7 * ease)
      let targetLayer : ℚ := if b.z < 1.25 then 1 else 2
      let b3 : Bee :=
        { b with x := b.hoverAnchorX + o.cosQ ang * rr * b.hoverDirection,
                 y := b.hoverAnchorY + o.sinQ ang * rr * b.hoverDirection,
                 z := b.z + (targetLayer - b.z) * 0.04 }
      let effDur : ℤ := if b3.stateDuration = 0 then 120 else b3.stateDuration
      if effDur ≤ b3.stateCounter then
        if 0.8 < rr then
          Bee.enterState fr.hoverDirDraw fr.hoverPhase AnimationType.fly
            (some ⌊(180 : ℚ) + fr.rt * 240⌋) b3
        else
          Bee.enterState fr.hoverDirDraw fr.hoverPhase AnimationType.land
            (some ⌊(40 : ℚ) + fr.rt * 40⌋) b3
      else b3

/-- Tail of Bee.updateBee: derive onGround, groundMotion and the leg gait
flag from the positional and angular deltas over the frame, advance the
gait counter when animating, and store the previous-frame snapshot. -/
def Bee.finishFrame (o : Oracle) (wasX wasY wasTheta : ℚ) (b : Bee) : Bee :=
  let turnedAmt :=
    |o.atan2 (o.sinQ (b.theta - wasTheta)) (o.cosQ (b.theta - wasTheta))|
  let onGround1 := decide (b.z < 0.3)
  let groundMotion1 :=
    onGround1 && (hypotGt (b.x - wasX) (b.y - wasY) 0.05 || decide (0 < turnedAmt))
  { b with onGround := onGround1,
           groundMotion := groundMotion1,
           legsShouldAnimate := groundMotion1,
           legGaitCounter := if groundMotion1 then b.legGaitCounter + 1 else b.legGaitCounter,
           prevX := b.x, prevY := b.y, prevTheta := b.theta }

/-- Bee.updateBee: the per-frame physics and state update of one bee.
Order as in the source: tick counters, snapshot the previous pose, steer
toward the target, run the state switch, then derive the ground-motion
bookkeeping. -/
def Bee.updateBee (o : Oracle) (fr : FrameRand) (b : Bee) : Bee :=
  let b0 := Bee.tickCounters b
  let b1 := Bee.steerTowardTarget o b0
  let b2 := Bee.stepState o fr b1
  Bee.finishFrame o b0.x b0.y b0.theta b2

/-- One hex cell of the comb grid (class Honeycomb): axial coordinates,
canvas position, activation state, content type and cluster metadata. -/
structure Honeycomb where
  q : ℤ
  r : ℤ
  x : ℚ
  y : ℚ
  size : ℚ
  active : Bool
  border : ℕ
  edge : ℕ
  opacity : ℚ
  ctype : CellType
  distanceFromCentrePiece : ℕ
  age : ℤ
deriving DecidableEq, Repr

/-- Honeycomb grid as a partial map from axial coordinates to cells.  The
source HoneycombMap keys cells by the string q comma r, which is injective
in the pair, so the pair itself is the key here. -/
def HexGrid : Type := ℤ × ℤ → Option Honeycomb

/-- Canvas x of the grid cell at axial (q, r): hexWidth * 0.75 * r with
hexWidth = 2 * size (Hive.initialiseGrid). -/
def cellX (s : ℚ) (r : ℤ) : ℚ := s * 2 * 0.75 * (r : ℚ)

/-- Canvas y of the grid cell at axial (q, r): hexHeight * (q + r / 2) with
hexHeight = sqrt 3 * size (Hive.initialiseGrid).  The irrational factor
sqrt 3 is a symbolic positive parameter: the source computes the same
expression Math.sqrt(3) in the forward and inverse conversions, so every
claim proved about them holds for an arbitrary positive value. -/
def cellY (s sqrt3 : ℚ) (q r : ℤ) : ℚ := sqrt3 * s * ((q : ℚ) + (r : ℚ) / 2)

/-- Grid well-formedness: the invariant established by Hive.initialiseGrid,
that the cell stored at key (q, r) carries those axial coordinates and the
canvas position derived from them. -/
def gridWF (grid : HexGrid) (s sqrt3 : ℚ) : Prop :=
  ∀ q r c, grid (q, r) = some c →
    c.q = q ∧ c.r = r ∧ c.x = cellX s r ∧ c.y = cellY s sqrt3 q r

/-- Hive.xyToAxial: canvas point to fractional axial coordinates, via
r = x / (hexWidth * 0.75) and q = y / hexHeight - r / 2. -/
def xyToAxial (s sqrt3 x y : ℚ) : ℚ × ℚ :=
  let hexWidth := s * 2
  let hexHeight := sqrt3 * s
  let r := x / (hexWidth * 0.75)
  let q := y / hexHeight - r / 2
  (q, r)

/-- Hive.axialRound: cube-coordinate rounding of fractional axial
coordinates.  Convert to cube (x = r, z = q, y = -x - z), round each
component, then recompute the component with the largest rounding error so
the cube constraint holds; return axial (q, r) = (rz, rx). -/
def axialRound (qf rf : ℚ) : ℤ × ℤ :=
  let x := rf
  let z := qf
  let y := -x - z
  let rx := jsRound x
  let ry := jsRound y
  let rz := jsRound z
  let xDiff := |(rx : ℚ) - x|
  let yDiff := |(ry : ℚ) - y|
  let zDiff := |(rz : ℚ) - z|
  if yDiff < xDiff ∧ zDiff < xDiff then (rz, -ry - rz)
  else if zDiff < yDiff then (rz, rx)
  else (-rx - ry, rx)

/-- Fold step of the best-candidate scan in Hive.getNearestCellToPointFast.
The accumulator none stands for (undefined, Infinity); distances are kept
squared (Math.hypot comparisons are equivalent on squares). -/
def nearestFold (x y : ℚ) (best : Option (Honeycomb × ℚ)) (c : Option Honeycomb) :
    Option (Honeycomb × ℚ) :=
  match c with
  | none => best
  | some cell =>
      let d := (cell.x - x) * (cell.x - x) + (cell.y - y) * (cell.y - y)
      match best with
      | none => some (cell, d)
      | some (bc, bd) => if d < bd then some (cell, d) else some (bc, bd)

/-- Hive.getNearestCellToPointFast: round the query point to the nearest
axial cell and compare only that cell and its six axial neighbours,
returning the closest (with its squared distance); none encodes the
undefined cell / Infinity distance pair of the source. -/
def getNearestCellToPointFast (grid : HexGrid) (s sqrt3 x y : ℚ) :
    Option (Honeycomb × ℚ) :=
  let fr := xyToAxial s sqrt3 x y
  let qr := axialRound fr.1 fr.2
  let q := qr.1
  let r := qr.2
  let candidates : List (Option Honeycomb) :=
    [grid (q, r), grid (q + 1, r), grid (q - 1, r), grid (q, r + 1),
     grid (q, r - 1), grid (q + 1, r - 1), grid (q - 1, r + 1)]
  candidates.foldl (nearestFold x y) none

/-- HoneycombCluster.randomWithin20Percent: a random integer within plus or
minus twenty percent of the base value; u is the Math.random() draw (the
source samples uniformly in [low, high) and floors). -/
def randomWithin20Percent (u : ℚ) (value : ℚ) : ℤ :=
  let low : ℚ := max 1 ⌊value * 0.8⌋
  let high : ℚ := ⌈value * 1.2⌉
  ⌊u * (high - low) + low⌋

/-- HoneycombCluster.generateVisibleTime: inflate the base visible time by
the fade-in, fade-out and maximum per-ring propagation delay. -/
def generateVisibleTime (maximumDistanceAndBorder : ℤ)
    (visibleTime fadeInTime fadeOutTime delayTime : ℤ) : ℤ :=
  let maxDelay := delayTime * maximumDistanceAndBorder
  let timeToLoad := fadeInTime + fadeOutTime + maxDelay
  visibleTime + timeToLoad

/-- HoneycombCluster.getMaximumLifeTime: visible time plus fade-in plus
fade-out. -/
def maximumLifeTime (visibleTime fadeInTime fadeOutTime : ℤ) : ℤ :=
  visibleTime + fadeInTime + fadeOutTime

/-- Cluster timing defaults from the HoneycombCluster field initialisers:
fadeInTime 60, fadeOutTime 180, delayTime 30 frames. -/
def clusterFadeInTime : ℤ := 60

/-- Cluster fade-out default (HoneycombCluster.fadeOutTime). -/
def clusterFadeOutTime : ℤ := 180

/-- Cluster per-ring delay default (HoneycombCluster.delayTime). -/
def clusterDelayTime : ℤ := 30

/-- Total cluster lifetime as computed at activation (the composition the
HoneycombCluster initialiser performs): jittered visible time, inflated by
generateVisibleTime for the maximum ring distance D, then extended by
fade-in and fade-out by getMaximumLifeTime. -/
def clusterTotalLifetime (jitteredVisible : ℤ) (maxDistanceAndBorder : ℤ) : ℤ :=
  maximumLifeTime
    (generateVisibleTime maxDistanceAndBorder jitteredVisible
      clusterFadeInTime clusterFadeOutTime clusterDelayTime)
    clusterFadeInTime clusterFadeOutTime

/-- Pool-management view of class HoneycombCluster: the fields that the
Hive cluster-reseeding paths read and write.  The grown cell set and the
per-cell grid mutations of the cluster initialiser are outside the scope of
the pool-gating claims and are not represented. -/
structure ClusterState where
  active : Bool
  userSpawned : Bool
  visibleTime : ℤ
  cooldownFrames : ℚ
  cooldownCounter : ℚ
  clusterSize : Option ℕ
  centre : Honeycomb
deriving DecidableEq, Repr

/-- HoneycombCluster.resetCluster: reactivate the pooled cluster at a new
centre cell, rerolling the visible time within twenty percent of the base
(600 when the caller passes no explicit value); u is the jitter draw and
grownSize the size of the cell set grown by the initialiser (an oracle
here, since the grown geometry is outside the pool model).  Note that
resetCluster does not touch cooldownCounter. -/
def ClusterState.resetCluster (u : ℚ) (centreCell : Honeycomb)
    (userSpawned : Bool) (grownSize : ℕ) (c : ClusterState) : ClusterState :=
  { c with visibleTime := randomWithin20Percent u 600,
           centre := centreCell,
           active := true,
           userSpawned := userSpawned,
           clusterSize := some grownSize }

/-- HoneycombCluster.tickCooldown: decrement the reuse cooldown toward 0. -/
def ClusterState.tickCooldown (c : ClusterState) : ClusterState :=
  if 0 < c.cooldownCounter then { c with cooldownCounter := c.cooldownCounter - 1 } else c

/-- Hive.getClusterCap: the dynamic concurrent-cluster cap.  Inputs are the
grid cell count, the sizes of the currently active clusters (for the
average-size estimate), the coverage target, fps, the ramp start and step
in seconds, and the current frame counter. -/
def getClusterCap (gridSize : ℕ) (activeSizes : List ℕ)
    (targetCoverage fps rampStartSec rampStepSec : ℚ) (frameCounter : ℕ) : ℤ :=
  let gridCells : ℚ := if gridSize = 0 then 1 else (gridSize : ℚ)
  let avgClusterCells : ℚ :=
    if activeSizes.length = 0 then 180
    else (activeSizes.sum : ℚ) / (activeSizes.length : ℚ)
  let desiredActiveCells := gridCells * targetCoverage
  let coverageCap : ℤ := max 1 ⌊desiredActiveCells / max 1 avgClusterCells⌋
  let coverageCap : ℤ := min coverageCap 12
  let seconds := (frameCounter : ℚ) / fps
  let timeCap : ℤ :=
    if rampStartSec ≤ seconds then 1 + ⌊(seconds - rampStartSec) / rampStepSec⌋ else 0
  max 0 (min coverageCap timeCap)

/-- Hive.initialiser bee-count computation: each bee claims about
density * size * size pixels (clamped below by 1), and the resulting count
is clamped into [1, 500].  The parameter density is the source prop
controlling pixels per bee. -/
def numberOfBees (canvasWidth canvasHeight density beeSize : ℚ) : ℤ :=
  let canvasArea := canvasWidth * canvasHeight
  let perBeeArea := max 1 (density * beeSize * beeSize)
  let estimated := ⌊canvasArea / perBeeArea⌋
  max 1 (min estimated 500)

/-- Orchestrator (class Hive) state restricted to the cluster-pool and
configuration fields that the reseeding paths read and write.
lastClusterSpawnFrame is Option valued: none encodes the initial
minus-Infinity sentinel. -/
structure HiveState where
  clusters : List ClusterState
  frameCounter : ℕ
  lastClusterSpawnFrame : Option ℤ
  fps : ℚ
  targetHoneycombCoverage : ℚ
  rampStartSec : ℚ
  rampStepSec : ℚ
  grid : HexGrid
  gridSize : ℕ
  honeyCombSize : ℚ

/-- Sizes of the currently active clusters with a grown cell set, as read
by the averaging loop of Hive.getClusterCap (the active and cluster-set
guards of the source loop). -/
def HiveState.activeClusterSizes (h : HiveState) : List ℕ :=
  h.clusters.filterMap (fun c => if c.active then c.clusterSize else none)

/-- Hive.getActiveClusterCount. -/
def HiveState.activeClusterCount (h : HiveState) : ℕ :=
  (h.clusters.filter (fun c => c.active)).length

/-- Hive.getClusterCap applied to the current orchestrator state. -/
def HiveState.clusterCap (h : HiveState) : ℤ :=
  getClusterCap h.gridSize h.activeClusterSizes h.targetHoneycombCoverage
    h.fps h.rampStartSec h.rampStepSec h.frameCounter

/-- Random draws consumed by one cluster-spawn attempt: the pool growth
draws (a random seed cell and a visible-time jitter per appended pool
entry), the random cell choice of the auto-spawn path, the jitter draw of
the resetCluster call, and the grown cell-set size oracle. -/
structure SpawnRand where
  poolCells : ℕ → Honeycomb
  poolJitters : ℕ → ℚ
  cellChoice : Option Honeycomb
  resetJitter : ℚ
  grownSize : ℕ

/-- Hive.ensureClusterPool: append freshly constructed inactive clusters
(visible time jittered around fps * 20 frames, cooldown fps * 15 frames,
cooldown counter 0, no grown set) until the pool holds at least size
entries. -/
def ensureClusterPool (fps : ℚ) (sr : SpawnRand) (size : ℕ)
    (clusters : List ClusterState) : List ClusterState :=
  clusters ++ (List.range (size - clusters.length)).map (fun k =>
    { active := false,
      userSpawned := false,
      visibleTime := randomWithin20Percent (sr.poolJitters k) (fps * 20),
      cooldownFrames := fps * 15,
      cooldownCounter := 0,
      clusterSize := none,
      centre := sr.poolCells k })

/-- Hive.spawnOneClusterIfAllowed: when the active count is below the cap
and the minimum stagger interval has elapsed, grow the pool to the cap,
take the first inactive pool entry, and reseed it at a random inactive cell
provided its cooldown has run out. -/
def HiveState.spawnOneClusterIfAllowed (sr : SpawnRand) (h : HiveState) : HiveState :=
  let cap := h.clusterCap
  let active := h.activeClusterCount
  if cap ≤ (active : ℤ) then h
  else
    let minIntervalFrames : ℤ := ⌊h.fps * 5⌋
    let staggerBlocked : Bool :=
      match h.lastClusterSpawnFrame with
      | none => false
      | some f => decide ((h.frameCounter : ℤ) - f < minIntervalFrames)
    if staggerBlocked then h
    else
      let clusters1 := ensureClusterPool h.fps sr cap.toNat h.clusters
      match clusters1.findIdx? (fun c => !c.active) with
      | none => { h with clusters := clusters1 }
      | some idx =>
          match clusters1[idx]? with
          | none => { h with clusters := clusters1 }
          | some inactive =>
              if inactive.cooldownCounter ≤ 0 then
                match sr.cellChoice with
                | none => { h with clusters := clusters1 }
                | some cell =>
                    if cell.active then { h with clusters := clusters1 }
                    else
                      { h with
                        clusters := clusters1.set idx
                          (inactive.resetCluster sr.resetJitter cell false sr.grownSize),
                        lastClusterSpawnFrame := some (h.frameCounter : ℤ) }
              else { h with clusters := clusters1 }

/-- Cluster-spawn half of Hive.handleClick (the user-triggered spawn block
after the scare loop): if the cap has headroom, look up the nearest grid
cell to the click point and, when it is inactive, grow the pool and reseed
the first inactive pool entry there as a user cluster.  The sqrt3 parameter
is the symbolic value of Math.sqrt(3) used by the axial conversions. -/
def HiveState.handleClickSpawn (sqrt3 : ℚ) (sr : SpawnRand) (x y : ℚ)
    (h : HiveState) : HiveState :=
  let remaining := max 0 (h.clusterCap - (h.activeClusterCount : ℤ))
  if 0 < remaining then
    match getNearestCellToPointFast h.grid h.honeyCombSize sqrt3 x y with
    | none => h
    | some (cell, _) =>
        if cell.active then h
        else
          let clusters1 := ensureClusterPool h.fps sr h.clusterCap.toNat h.clusters
          match clusters1.findIdx? (fun c => !c.active) with
          | none => { h with clusters := clusters1 }
          | some idx =>
              match clusters1[idx]? with
              | none => { h with clusters := clusters1 }
              | some inactive =>
                  { h with
                    clusters := clusters1.set idx
                      (inactive.resetCluster sr.resetJitter cell true sr.grownSize),
                    lastClusterSpawnFrame := some (h.frameCounter : ℤ) }
  else h

/-- Random draws consumed by the scare branch of Hive.handleClick for one
bee: the heading jitter, the targetMaxAge reroll inside clearTarget, the
flee distance draw, the takeoff duration draw, and the two hover-entry
draws threaded to enterState. -/
structure ScareRand where
  jitter : ℚ
  maxAgeDraw : ℚ
  flee : ℚ
  dur : ℚ
  hd : ℚ
  hp : ℚ

/-- Scare radius of Hive.handleClick: max of the 120 pixel floor and four
times the bee size (CLICK.SCARE_RADIUS_MIN, CLICK.SCARE_RADIUS_BEE_MULT). -/
def scareRadiusOf (beeSize : ℚ) : ℚ := max 120 (beeSize * 4)

/-- Body of the scare loop of Hive.handleClick for one bee: when within the
scare radius of the click point, point the heading away (with jitter),
replace the target by a flee point along the away bearing, and push the bee
into takeoff unless it is already flying or taking off. -/
def scareOne (o : Oracle) (clickX clickY scareRadius : ℚ) (sr : ScareRand)
    (b : Bee) : Bee :=
  if hypotLe (b.x - clickX) (b.y - clickY) scareRadius then
    let away := o.atan2 (b.y - clickY) (b.x - clickX)
    let b1 : Bee := { b with theta := away + (sr.jitter - 0.5) * 0.3 }
    let b2 := Bee.clearTarget sr.maxAgeDraw b1
    let fleeDist := 300 + sr.flee * 300
    let b3 := Bee.setTarget (b2.x + o.cosQ away * fleeDist)
      (b2.y + o.sinQ away * fleeDist) none b2
    if b3.animation ≠ AnimationType.fly ∧ b3.animation ≠ AnimationType.takeoff then
      Bee.enterState sr.hd sr.hp AnimationType.takeoff
        (some ⌊(1 : ℚ) + sr.dur * 5⌋) b3
    else b3
  else b

/-- Scare loop of Hive.handleClick over the bee list, threading one
ScareRand per bee (index i names the draw set of the i-th bee). -/
def scarePass (o : Oracle) (clickX clickY scareRadius : ℚ)
    (rnd : ℕ → ScareRand) : ℕ → List Bee → List Bee
  | _, [] => []
  | i, b :: bs =>
      scareOne o clickX clickY scareRadius (rnd i) b ::
        scarePass o clickX clickY scareRadius rnd (i + 1) bs

/-- Scare half of Hive.handleClick: the scare loop run over all bees with
the radius derived from the bee size. -/
def handleClickScare (o : Oracle) (beeSize clickX clickY : ℚ)
    (rnd : ℕ → ScareRand) (bees : List Bee) : List Bee :=
  scarePass o clickX clickY (scareRadiusOf beeSize) rnd 0 bees

/-- Height layer of a bee as used by the spatial hash:
Math.round(Math.min(2, Math.max(0, z))). -/
def layerOf (b : Bee) : ℤ := jsRound (min 2 (max 0 b.z))

/-- Spatial-hash bin key of a bee (Hive.keyForBin): floor of each
coordinate over the bin size, plus the height layer.  The string key of
the source is injective in this triple. -/
def binKey (bin : ℚ) (b : Bee) : ℤ × ℤ × ℤ := (⌊b.x / bin⌋, ⌊b.y / bin⌋, layerOf b)

/-- Indices stored in one bin after the single population pass of the
proximity section of Hive.draw.  The source pushes indices in increasing
order, so the per-key array is exactly the ordered list of indices whose
bee hashes to the key. -/
def binIndices (bees : List Bee) (bin : ℚ) (k : ℤ × ℤ × ℤ) : List ℕ :=
  (List.range bees.length).filter (fun i =>
    match bees[i]? with
    | some b => decide (binKey bin b = k)
    | none => false)

/-- NEIGHBOUR_OFFSETS: the scanned bin and its 8 planar neighbours. -/
def neighbourOffsets : List (ℤ × ℤ) :=
  [(0, 0), (1, 0), (-1, 0), (0, 1), (0, -1), (1, 1), (1, -1), (-1, 1), (-1, -1)]

/-- Context of one proximity-resolution pass: fps, the proximity threshold
(also the bin size), the abstracted facing-cone and over-active-cluster
tests (both trigonometric in the source), and the bee array the bins were
built from. -/
structure ProxCtx where
  fps : ℚ
  thresh : ℚ
  facing : Bee → Bee → Bool
  overClusterAt : ℚ → ℚ → Bool
  bees : List Bee

/-- Random draws consumed when one bee handles a proximity match: the
prefer-land draw, the three duration draws of the land, hover and blocked
branches, and the hover-entry draws for enterState. -/
structure ProxRand where
  prefer : ℚ
  durLand : ℚ
  durHover : ℚ
  durBlocked : ℚ
  hd : ℚ
  hp : ℚ

/-- Qualification test of the inner candidate loop: a distinct index whose
bee is within the scaled threshold of beeA and inside the facing cone. -/
def proxQualifies (ctx : ProxCtx) (layerScale : ℚ) (beeA : Bee) (i j : ℕ) : Bool :=
  if j = i then false
  else
    match ctx.bees[j]? with
    | some beeB =>
        hypotLt (beeB.x - beeA.x) (beeB.y - beeA.y) (ctx.thresh * layerScale) &&
          ctx.facing beeA beeB
    | none => false

/-- Action applied to beeA on the first qualifying match: airborne bees
prefer landing (always over a cluster, else with probability 0.65) unless
already landing or taking off, otherwise hover briefly; grounded bees are
blocked. -/
def proxAction (ctx : ProxCtx) (layerA : ℤ) (pr : ProxRand) (beeA : Bee) : Bee :=
  if 0 < layerA then
    let overCluster := ctx.overClusterAt beeA.x beeA.y
    let preferLand := overCluster || decide (pr.prefer < 0.65)
    if preferLand ∧ beeA.animation ≠ AnimationType.land ∧
        beeA.animation ≠ AnimationType.takeoff then
      let b1 := Bee.enterState pr.hd pr.hp AnimationType.land
        (some ⌊(30 : ℚ) + pr.durLand * 45⌋) beeA
      { b1 with proximityCooldown := ⌊ctx.fps * 0.5⌋, minStateFrames := 12 }
    else if beeA.animation ≠ AnimationType.hover then
      { Bee.enterState pr.hd pr.hp AnimationType.hover
          (some ⌊(20 : ℚ) + pr.durHover * 25⌋) beeA with minStateFrames := 10 }
    else beeA
  else
    if beeA.animation ≠ AnimationType.blocked then
      Bee.enterState pr.hd pr.hp AnimationType.blocked
        (some ⌊(40 : ℚ) + pr.durBlocked * 60⌋) beeA
    else beeA

/-- Inner loop over the candidate indices of one bin: on the first
qualifying candidate, apply the resolution action and report handled
(the source sets handled = true and breaks). -/
def scanCands (ctx : ProxCtx) (layerScale : ℚ) (layerA : ℤ) (pr : ProxRand)
    (beeA : Bee) (i : ℕ) : List ℕ → Bee × Bool
  | [] => (beeA, false)
  | j :: rest =>
      if proxQualifies ctx layerScale beeA i j then
        (proxAction ctx layerA pr beeA, true)
      else scanCands ctx layerScale layerA pr beeA i rest

/-- Outer loop over the nine neighbouring bins: stop at the first handled
match (the source breaks out of the offset loop once handled). -/
def scanOffsets (ctx : ProxCtx) (layerScale : ℚ) (layerA : ℤ) (pr : ProxRand)
    (beeA : Bee) (i : ℕ) (cx cy : ℤ) : List (ℤ × ℤ) → Bee × Bool
  | [] => (beeA, false)
  | off :: rest =>
      let res := scanCands ctx layerScale layerA pr beeA i
        (binIndices ctx.bees ctx.thresh (cx + off.1, cy + off.2, layerA))
      if res.2 then res
      else scanOffsets ctx layerScale layerA pr beeA i cx cy rest

/-- Proximity resolution of one bee (one iteration of the outer loop of the
proximity section of Hive.draw): skip bees inside a dwell lock, a proximity
cooldown, or the turn state; otherwise scan the nine bins on the same layer
and handle the first qualifying neighbour. -/
def resolveOne (ctx : ProxCtx) (pr : ProxRand) (beeA : Bee) (i : ℕ) : Bee :=
  if 0 < beeA.minStateFrames then beeA
  else if 0 < beeA.proximityCooldown then beeA
  else if beeA.animation = AnimationType.turn then beeA
  else
    let layerA := layerOf beeA
    let cx := ⌊beeA.x / ctx.thresh⌋
    let cy := ⌊beeA.y / ctx.thresh⌋
    let layerScale : ℚ := if layerA = 0 then 1 else 0.8
    (scanOffsets ctx layerScale layerA pr beeA i cx cy neighbourOffsets).1

/-- Recursive body of the full proximity pass, resolving each listed bee at
its index.  The resolution of a bee reads only positions and headings of
the other bees (never mutated by the pass) and its own pre-pass gates, so
the in-place mutation of the source is equivalent to this per-index map
over the original array. -/
def proximityPassGo (ctx : ProxCtx) (rnd : ℕ → ProxRand) : ℕ → List Bee → List Bee
  | _, [] => []
  | i, b :: bs => resolveOne ctx (rnd i) b i :: proximityPassGo ctx rnd (i + 1) bs

/-- One full proximity-resolution pass over the bee array of the context. -/
def proximityPass (ctx : ProxCtx) (rnd : ℕ → ProxRand) : List Bee :=
  proximityPassGo ctx rnd 0 ctx.bees

/-- Zero oracle: concrete transcendental oracle used to evaluate the
embedding on concrete inputs. -/
def oracleZero : Oracle :=
  { noise := fun _ _ => 0, sinQ := fun _ => 0, cosQ := fun _ => 0,
    atan2 := fun _ _ => 0 }

/-- Zero frame draws for concrete evaluation. -/
def frandZero : FrameRand := { r := 0, rt := 0, hoverDirDraw := 0, hoverPhase := 0 }

/-- The state of a bee as built by the Bee constructor at position (0, 0)
with size 30 (all random offsets taken as 0): walking, grounded, no
target, all counters zero. -/
def beeBase : Bee :=
  { x := 0, y := 0, z := 0, theta := 0, size := 30, speed := 1,
    noiseOffset := 0, gaitOffset := 0, flapOffset := 0,
    hoverAnchorX := 0, hoverAnchorY := 0, hoverRadius := 0,
    hoverAngleOffset := 0, hoverDirection := 1,
    prevX := 0, prevY := 0, prevTheta := 0,
    legsShouldAnimate := false, onGround := true, groundMotion := false,
    targetX := none, targetY := none, targetKey := none,
    targetAge := 0, targetMaxAge := 240, arrivedFrames := 0,
    animation := AnimationType.walk,
    animationFrameCounter := 0, legGaitCounter := 0, wingFlapCounter := 0,
    stateCounter := 0, stateDuration := 0, minStateFrames := 0,
    proximityCooldown := 0, trailTick := 0, trailSide := false,
    stickyAge := 0, stickyKind := none }

/-- Concrete bee mid-landing with height 0.03 and stateCounter 5: the next
frame drives height to 0 and switches the mode directly to walk. -/
def beeLanding : Bee := { beeBase with animation := AnimationType.land, stateCounter := 5, z := 0.03 }

/-- Concrete idle bee whose duration has expired (counter 5, duration 3). -/
def beeIdleExpired : Bee := { beeBase with animation := AnimationType.idle, stateCounter := 5, stateDuration := 3 }

/-- Concrete hovering bee at expiry with the radius the state entry always
assigns (at least 3). -/
def beeHoverExpired : Bee :=
  { beeBase with animation := AnimationType.hover, stateCounter := 20,
                 stateDuration := 10, hoverRadius := 3, z := 1 }

/-- Concrete inactive grid cell at the origin, consistent with a grid of
cell size 15. -/
def cell00 : Honeycomb :=
  { q := 0, r := 0, x := 0, y := 0, size := 15, active := false,
    border := 0, edge := 0, opacity := 0, ctype := CellType.empty,
    distanceFromCentrePiece := 0, age := 0 }

/-- Concrete one-cell grid holding cell00 at the origin. -/
def gridOne : HexGrid := fun p => if p = (0, 0) then some cell00 else none

/-- Concrete pooled cluster that has just deactivated: inactive with a full
cooldown of 900 frames still to run. -/
def clusterCooling : ClusterState :=
  { active := false, userSpawned := false, visibleTime := 600,
    cooldownFrames := 450, cooldownCounter := 900, clusterSize := none,
    centre := cell00 }

/-- Concrete orchestrator state: one cooling pooled cluster, a one-cell
grid, default configuration, and five minutes of elapsed frames (so the
time ramp allows a spawn). -/
def hiveCooling : HiveState :=
  { clusters := [clusterCooling], frameCounter := 9000,
    lastClusterSpawnFrame := none, fps := 30,
    targetHoneycombCoverage := 0.33, rampStartSec := 20, rampStepSec := 30,
    grid := gridOne, gridSize := 1, honeyCombSize := 15 }

/-- Concrete spawn draws: pool entries seeded at the origin cell, all
jitters 0, no random cell choice, grown size 120. -/
def spawnRandZero : SpawnRand :=
  { poolCells := fun _ => cell00, poolJitters := fun _ => 0,
    cellChoice := none, resetJitter := 0, grownSize := 120 }

/-- Concrete scare draws with jitter 0.5 for witness evaluation. -/
def scareRandHalf : ScareRand :=
  { jitter := 0.5, maxAgeDraw := 0, flee := 0, dur := 0, hd := 0, hp := 0 }

/-- Concrete second bee ten pixels to the right of beeBase. -/
def beeTen : Bee := { beeBase with x := 10 }

/-- Concrete proximity draws, all zero. -/
def proxRandZero : ProxRand :=
  { prefer := 0, durLand := 0, durHover := 0, durBlocked := 0, hd := 0, hp := 0 }

/-- Concrete proximity context: two grounded walking bees ten pixels
apart, threshold 45 (bee size 30 times 1.5), a facing oracle that always
reports the cone test true, and no active cluster anywhere. -/
def ctxTwoBees : ProxCtx :=
  { fps := 30, thresh := 45, facing := fun _ _ => true,
    overClusterAt := fun _ _ => false, bees := [beeBase, beeTen] }

/-- Concrete pooled cluster that is inactive with its cooldown fully run
out (eligible for reseeding). -/
def clusterReady : ClusterState := { clusterCooling with cooldownCounter := 0 }

/-- Concrete orchestrator state whose single pool entry is ready for
reseeding. -/
def hiveReady : HiveState := { hiveCooling with clusters := [clusterReady] }

/-- Concrete spawn draws whose random cell choice is the origin cell. -/
def spawnRandCell : SpawnRand := { spawnRandZero with cellChoice := some cell00 }

/-
Theorems.  Helper lemmas first, then one theorem per claim (with witness
or counterexample theorems where required).
-/

theorem finishFrame_animation (o : Oracle) (wx wy wt : ℚ) (c : Bee) :
    (Bee.finishFrame o wx wy wt c).animation = c.animation := rfl

theorem finishFrame_stateCounter (o : Oracle) (wx wy wt : ℚ) (c : Bee) :
    (Bee.finishFrame o wx wy wt c).stateCounter = c.stateCounter := rfl

theorem finishFrame_stateDuration (o : Oracle) (wx wy wt : ℚ) (c : Bee) :
    (Bee.finishFrame o wx wy wt c).stateDuration = c.stateDuration := rfl

theorem tickCounters_animation (b : Bee) :
    (Bee.tickCounters b).animation = b.animation := rfl

theorem tickCounters_stateCounter (b : Bee) :
    (Bee.tickCounters b).stateCounter = b.stateCounter + 1 := rfl

theorem steer_animation (o : Oracle) (b : Bee) :
    (Bee.steerTowardTarget o b).animation = b.animation := by
  unfold Bee.steerTowardTarget
  rcases b.targetX with _ | tx <;> rcases b.targetY with _ | ty <;> rfl

theorem steer_stateCounter (o : Oracle) (b : Bee) :
    (Bee.steerTowardTarget o b).stateCounter = b.stateCounter := by
  unfold Bee.steerTowardTarget
  rcases b.targetX with _ | tx <;> rcases b.targetY with _ | ty <;> rfl

theorem steer_stateDuration (o : Oracle) (b : Bee) :
    (Bee.steerTowardTarget o b).stateDuration = b.stateDuration := by
  unfold Bee.steerTowardTarget
  rcases b.targetX with _ | tx <;> rcases b.targetY with _ | ty <;> rfl

theorem steer_z (o : Oracle) (b : Bee) :
    (Bee.steerTowardTarget o b).z = b.z := by
  unfold Bee.steerTowardTarget
  rcases b.targetX with _ | tx <;> rcases b.targetY with _ | ty <;> rfl

theorem steer_hoverRadius (o : Oracle) (b : Bee) :
    (Bee.steerTowardTarget o b).hoverRadius = b.hoverRadius := by
  unfold Bee.steerTowardTarget
  rcases b.targetX with _ | tx <;> rcases b.targetY with _ | ty <;> rfl

theorem enterState_animation (d1 d2 : ℚ) (next : AnimationType) (dur : Option ℤ) (b : Bee) :
    (Bee.enterState d1 d2 next dur b).animation = next := by
  unfold Bee.enterState
  by_cases h : next = b.animation
  · rw [if_pos h]
    rcases dur with _ | d
    · exact h.symm
    · exact h.symm
  · rw [if_neg h]
    cases next <;> rfl

theorem enterState_stateCounter_of_ne (d1 d2 : ℚ) (next : AnimationType)
    (dur : Option ℤ) (b : Bee) (h : next ≠ b.animation) :
    (Bee.enterState d1 d2 next dur b).stateCounter = 0 := by
  unfold Bee.enterState
  rw [if_neg h]
  cases next <;> rfl

/-- Claim C8: for every construction-time configuration, including
out-of-range values such as a negative density ratio, the computed bee
count is at least 1 and at most the sanity ceiling 500 (the embedding
being exact rational arithmetic, it is in particular a well-defined,
non-negative integer). -/
theorem claim_c8_bee_count_clamped (w h density beeSize : ℚ) :
    1 ≤ numberOfBees w h density beeSize ∧ numberOfBees w h density beeSize ≤ 500 := by
  unfold numberOfBees
  exact ⟨le_max_left _ _, max_le (by norm_num) (min_le_right _ _)⟩

/-- Claim C2, counterexample: a cluster activation whose jittered visible
time takes the low end of the twenty percent band around the default base
600 (jitter draw 0 gives 480 frames) and whose maximum ring distance plus
border is 25 has total lifetime 1710, strictly less than
fadeIn + fadeOut + 2 * perRingDelay * 25 = 1740, so the claimed inequality
fails as stated. -/
theorem claim_c2_counterexample :
    ¬ (clusterFadeInTime + clusterFadeOutTime + 2 * (clusterDelayTime * 25) ≤
        clusterTotalLifetime (randomWithin20Percent 0 600) 25) := by
  norm_num [clusterTotalLifetime, maximumLifeTime, generateVisibleTime,
    randomWithin20Percent, clusterFadeInTime, clusterFadeOutTime, clusterDelayTime]

/-- Claim C2 (amended): for a cluster whose jittered visible base is jv and
whose maximum (ring distance + border ring) is D, the computed total
lifetime is at least fadeIn + fadeOut + 2 * perRingDelay * D provided the
maximum propagation delay perRingDelay * D does not exceed
jv + fadeIn + fadeOut (with the default base 600 this holds for every
D up to 24, since jv is then at least 480). -/
theorem claim_c2_total_lifetime (jv D : ℤ)
    (h : clusterDelayTime * D ≤ jv + clusterFadeInTime + clusterFadeOutTime) :
    clusterFadeInTime + clusterFadeOutTime + 2 * (clusterDelayTime * D) ≤
      clusterTotalLifetime jv D := by
  simp only [clusterTotalLifetime, maximumLifeTime, generateVisibleTime,
    clusterFadeInTime, clusterFadeOutTime, clusterDelayTime] at h ⊢
  omega

/-- Witness for claim C2 at the default base (jitter draw 0, D = 8). -/
theorem claim_c2_witness :
    clusterDelayTime * 8 ≤ randomWithin20Percent 0 600 + clusterFadeInTime + clusterFadeOutTime ∧
      clusterFadeInTime + clusterFadeOutTime + 2 * (clusterDelayTime * 8) ≤
        clusterTotalLifetime (randomWithin20Percent 0 600) 8 :=
  ⟨by norm_num [randomWithin20Percent, clusterFadeInTime, clusterFadeOutTime, clusterDelayTime],
   claim_c2_total_lifetime (randomWithin20Percent 0 600) 8
     (by norm_num [randomWithin20Percent, clusterFadeInTime, clusterFadeOutTime, clusterDelayTime])⟩

/-- Claim C4: for a fixed configuration (grid, active sizes, coverage,
positive fps, ramp start, positive ramp step), the effective dynamic
cluster cap max(0, min(coverageCap, timeRampCap)) is monotonically
non-decreasing in the frame counter and never exceeds the safety ceiling
12. -/
theorem claim_c4_cap_monotone_bounded (gridSize : ℕ) (activeSizes : List ℕ)
    (targetCoverage fps rampStartSec rampStepSec : ℚ) (f1 f2 : ℕ)
    (hfps : 0 < fps) (hstep : 0 < rampStepSec) (hf : f1 ≤ f2) :
    getClusterCap gridSize activeSizes targetCoverage fps rampStartSec rampStepSec f1 ≤
      getClusterCap gridSize activeSizes targetCoverage fps rampStartSec rampStepSec f2 ∧
    getClusterCap gridSize activeSizes targetCoverage fps rampStartSec rampStepSec f2 ≤ 12 := by
  unfold getClusterCap
  constructor
  · apply max_le_max le_rfl
    apply min_le_min le_rfl
    have hcast : (f1 : ℚ) ≤ (f2 : ℚ) := by exact_mod_cast hf
    have hs : (f1 : ℚ) / fps ≤ (f2 : ℚ) / fps := by gcongr
    split_ifs with h1 h2
    · have : ((f1 : ℚ) / fps - rampStartSec) / rampStepSec ≤
          ((f2 : ℚ) / fps - rampStartSec) / rampStepSec := by
        gcongr
      exact add_le_add_left (Int.floor_le_floor this) 1
    · exact absurd (le_trans h1 hs) h2
    · have hnn : (0 : ℚ) ≤ ((f2 : ℚ) / fps - rampStartSec) / rampStepSec := by
        apply div_nonneg _ hstep.le
        linarith
      have := Int.floor_nonneg.mpr hnn
      omega
    · exact le_rfl
  · apply max_le (by norm_num)
    exact le_trans (min_le_left _ _) (min_le_right _ 12)

/-- Witness for claim C4 at a concrete configuration: default grid of 2000
cells, no active clusters, coverage 0.33, 30 fps, ramp start 20 s, step
30 s, frames 600 and 6000. -/
theorem claim_c4_witness :
    (0 : ℚ) < 30 ∧ (0 : ℚ) < 30 ∧ (600 : ℕ) ≤ 6000 ∧
      (getClusterCap 2000 [] 0.33 30 20 30 600 ≤ getClusterCap 2000 [] 0.33 30 20 30 6000 ∧
        getClusterCap 2000 [] 0.33 30 20 30 6000 ≤ 12) :=
  ⟨by norm_num, by norm_num, by norm_num,
    claim_c4_cap_monotone_bounded 2000 [] 0.33 30 20 30 600 6000
      (by norm_num) (by norm_num) (by norm_num)⟩

/-- Exhaustive classification of one state-switch step: either the
counter was reset (an enterState transition), or the mode is unchanged, or
the step is the direct land-to-walk switch (which bypasses enterState). -/
theorem stepState_cases (o : Oracle) (fr : FrameRand) (c : Bee) :
    (Bee.stepState o fr c).stateCounter = 0 ∨
    (Bee.stepState o fr c).animation = c.animation ∨
    (c.animation = AnimationType.land ∧
      (Bee.stepState o fr c).animation = AnimationType.walk) := by
  cases hA : c.animation <;>
    simp only [Bee.stepState, hA] <;>
    split_ifs <;>
    first
      | exact Or.inl (enterState_stateCounter_of_ne _ _ _ _ _ (by decide))
      | exact Or.inr (Or.inl rfl)
      | exact Or.inr (Or.inr ⟨trivial, rfl⟩)
      | exact Or.inl rfl

theorem updateBee_animation (o : Oracle) (fr : FrameRand) (b : Bee) :
    (Bee.updateBee o fr b).animation =
      (Bee.stepState o fr (Bee.steerTowardTarget o (Bee.tickCounters b))).animation := rfl

theorem updateBee_stateCounter (o : Oracle) (fr : FrameRand) (b : Bee) :
    (Bee.updateBee o fr b).stateCounter =
      (Bee.stepState o fr (Bee.steerTowardTarget o (Bee.tickCounters b))).stateCounter := rfl

theorem updateBee_stateDuration (o : Oracle) (fr : FrameRand) (b : Bee) :
    (Bee.updateBee o fr b).stateDuration =
      (Bee.stepState o fr (Bee.steerTowardTarget o (Bee.tickCounters b))).stateDuration := rfl

theorem preStep_animation (o : Oracle) (b : Bee) :
    (Bee.steerTowardTarget o (Bee.tickCounters b)).animation = b.animation := by
  rw [steer_animation, tickCounters_animation]

/-- Claim C1 (amended): every frame update that changes the animation mode
leaves stateCounter equal to 0, except for the direct land-to-walk switch
taken when height reaches 0, which bypasses enterState and leaves
stateCounter at its incremented value. -/
theorem claim_c1_transition_resets (o : Oracle) (fr : FrameRand) (b : Bee)
    (hch : (Bee.updateBee o fr b).animation ≠ b.animation) :
    (Bee.updateBee o fr b).stateCounter = 0 ∨
      (b.animation = AnimationType.land ∧
        (Bee.updateBee o fr b).animation = AnimationType.walk) := by
  rcases stepState_cases o fr (Bee.steerTowardTarget o (Bee.tickCounters b)) with h | h | h
  · left
    rw [updateBee_stateCounter]
    exact h
  · exfalso
    apply hch
    rw [updateBee_animation, h, preStep_animation]
  · right
    refine ⟨?_, ?_⟩
    · rw [← preStep_animation o b]
      exact h.1
    · rw [updateBee_animation]
      exact h.2

/-- Claim C1, counterexample: a bee in the land state with stateCounter 5
and height 0.03 switches to walk on the next frame (height reaches 0) but
ends the frame with stateCounter 6, not 0. -/
theorem claim_c1_counterexample :
    ¬ ((Bee.updateBee oracleZero frandZero beeLanding).animation ≠ beeLanding.animation →
        (Bee.updateBee oracleZero frandZero beeLanding).stateCounter = 0) := by
  intro himp
  have hne : (Bee.updateBee oracleZero frandZero beeLanding).animation ≠ beeLanding.animation := by
    norm_num [Bee.updateBee, Bee.tickCounters, Bee.steerTowardTarget, Bee.stepState,
      Bee.finishFrame, beeLanding, beeBase, oracleZero, frandZero]
    decide
  have h0 := himp hne
  norm_num [Bee.updateBee, Bee.tickCounters, Bee.steerTowardTarget, Bee.stepState,
    Bee.finishFrame, beeLanding, beeBase, oracleZero, frandZero] at h0

/-- Witness for claim C1: an idle bee with expired duration transitions
through enterState (draw r = 0.5 picks walk) and indeed ends the frame
with stateCounter 0. -/
theorem claim_c1_witness :
    (Bee.updateBee oracleZero { frandZero with r := 0.5 } beeIdleExpired).animation ≠
        beeIdleExpired.animation ∧
      ((Bee.updateBee oracleZero { frandZero with r := 0.5 } beeIdleExpired).stateCounter = 0 ∨
        (beeIdleExpired.animation = AnimationType.land ∧
          (Bee.updateBee oracleZero { frandZero with r := 0.5 } beeIdleExpired).animation =
            AnimationType.walk)) :=
  ⟨by
    norm_num [Bee.updateBee, Bee.tickCounters, Bee.steerTowardTarget, Bee.stepState,
      Bee.finishFrame, Bee.enterState, beeIdleExpired, beeBase, oracleZero, frandZero]
    decide,
   claim_c1_transition_resets oracleZero { frandZero with r := 0.5 } beeIdleExpired
     (by
      norm_num [Bee.updateBee, Bee.tickCounters, Bee.steerTowardTarget, Bee.stepState,
        Bee.finishFrame, Bee.enterState, beeIdleExpired, beeBase, oracleZero, frandZero]
      decide)⟩

/-- Claim C9: an idle bee never transitions directly to flutter.  After a
frame update it is walking, turning, or still idle with its (incremented)
counter strictly below the effective duration; in particular, whenever the
counter reaches the duration, the next state is walk or turn, because the
flutter guard (r greater than 0.85) is tested only after the walk guard
(r greater than 0.15) has failed. -/
theorem claim_c9_idle_never_flutter (o : Oracle) (fr : FrameRand) (b : Bee)
    (h : b.animation = AnimationType.idle) :
    (Bee.updateBee o fr b).animation = AnimationType.walk ∨
    (Bee.updateBee o fr b).animation = AnimationType.turn ∨
    ((Bee.updateBee o fr b).animation = AnimationType.idle ∧
      (Bee.updateBee o fr b).stateCounter < (Bee.updateBee o fr b).stateDuration) := by
  have hcA : (Bee.steerTowardTarget o (Bee.tickCounters b)).animation = AnimationType.idle := by
    rw [preStep_animation, h]
  rw [updateBee_animation, updateBee_stateCounter, updateBee_stateDuration]
  simp only [Bee.stepState, hcA]
  split_ifs with h1 h2 h3 h4 h5 h6 <;> (try dsimp only)
  · exact Or.inl (enterState_animation _ _ _ _ _)
  · exact absurd h4 (by linarith)
  · exact Or.inr (Or.inl (enterState_animation _ _ _ _ _))
  · exact Or.inr (Or.inr ⟨rfl, by omega⟩)
  · exact Or.inl (enterState_animation _ _ _ _ _)
  · exact absurd h6 (by linarith)
  · exact Or.inr (Or.inl (enterState_animation _ _ _ _ _))
  · exact Or.inr (Or.inr ⟨rfl, by omega⟩)

/-- Witness for claim C9: the concrete expired idle bee with draw r = 0.5
lands in the walk branch. -/
theorem claim_c9_witness :
    beeIdleExpired.animation = AnimationType.idle ∧
      ((Bee.updateBee oracleZero { frandZero with r := 0.5 } beeIdleExpired).animation =
          AnimationType.walk ∨
        (Bee.updateBee oracleZero { frandZero with r := 0.5 } beeIdleExpired).animation =
          AnimationType.turn ∨
        ((Bee.updateBee oracleZero { frandZero with r := 0.5 } beeIdleExpired).animation =
            AnimationType.idle ∧
          (Bee.updateBee oracleZero { frandZero with r := 0.5 } beeIdleExpired).stateCounter <
            (Bee.updateBee oracleZero { frandZero with r := 0.5 } beeIdleExpired).stateDuration)) :=
  ⟨rfl, claim_c9_idle_never_flutter oracleZero { frandZero with r := 0.5 } beeIdleExpired rfl⟩

theorem preStep_hoverRadius (o : Oracle) (b : Bee) :
    (Bee.steerTowardTarget o (Bee.tickCounters b)).hoverRadius = b.hoverRadius := by
  rw [steer_hoverRadius]; rfl

theorem preStep_stateCounter (o : Oracle) (b : Bee) :
    (Bee.steerTowardTarget o (Bee.tickCounters b)).stateCounter = b.stateCounter + 1 := by
  rw [steer_stateCounter]; rfl

/-- Claim C10: an expiring hover always branches to fly, never to land.
First conjunct: entering the hover state from any other state assigns a
hover radius of at least 3 (the radius max(3, 0.15 * size) scaled by a
factor of at least 1).  Second conjunct: a hovering bee with such a radius
and a non-negative counter (as every reachable bee has) either continues
hovering (counter still below the effective duration) or transitions to
fly: the exit test compares the eased circle radius, which is at least
0.9, against 0.8, so the land branch is unreachable. -/
theorem claim_c10_hover_exits_to_fly :
    (∀ (d1 d2 : ℚ) (dur : Option ℤ) (b : Bee), b.animation ≠ AnimationType.hover →
        3 ≤ (Bee.enterState d1 d2 AnimationType.hover dur b).hoverRadius) ∧
    (∀ (o : Oracle) (fr : FrameRand) (b : Bee), b.animation = AnimationType.hover →
        3 ≤ b.hoverRadius → 0 ≤ b.stateCounter →
        (Bee.updateBee o fr b).animation = AnimationType.fly ∨
        ((Bee.updateBee o fr b).animation = AnimationType.hover ∧
          (Bee.updateBee o fr b).stateCounter <
            (if (Bee.updateBee o fr b).stateDuration = 0 then 120
             else (Bee.updateBee o fr b).stateDuration))) := by
  constructor
  · intro d1 d2 dur b hne
    unfold Bee.enterState
    rw [if_neg (fun heq => hne heq.symm)]
    show (3 : ℚ) ≤ (max 3 (b.size * 0.15)) * (1 + 0.3 * min 2 (max 0 b.z))
    have h1 : (3 : ℚ) ≤ max 3 (b.size * 0.15) := le_max_left _ _
    have h2 : (0 : ℚ) ≤ min 2 (max 0 b.z) := le_min (by norm_num) (le_max_left _ _)
    nlinarith
  · intro o fr b hA hR hsc
    have hcA : (Bee.steerTowardTarget o (Bee.tickCounters b)).animation = AnimationType.hover := by
      rw [preStep_animation, hA]
    have hcR : (3 : ℚ) ≤ (Bee.steerTowardTarget o (Bee.tickCounters b)).hoverRadius := by
      rw [preStep_hoverRadius]; exact hR
    have hcs : 1 ≤ (Bee.steerTowardTarget o (Bee.tickCounters b)).stateCounter := by
      rw [preStep_stateCounter]; omega
    rw [updateBee_animation, updateBee_stateCounter, updateBee_stateDuration]
    simp only [Bee.stepState, hcA]
    have hrr : (0.8 : ℚ) <
        (Bee.steerTowardTarget o (Bee.tickCounters b)).hoverRadius *
          (0.3 + 0.7 * min 1 (((Bee.steerTowardTarget o (Bee.tickCounters b)).stateCounter : ℚ) / 10)) := by
      have hq : (1 : ℚ) ≤ ((Bee.steerTowardTarget o (Bee.tickCounters b)).stateCounter : ℚ) := by
        exact_mod_cast hcs
      have he : (1 / 10 : ℚ) ≤ min 1 (((Bee.steerTowardTarget o (Bee.tickCounters b)).stateCounter : ℚ) / 10) := by
        apply le_min (by norm_num)
        linarith
      nlinarith
    split_ifs <;> (try dsimp only) <;>
      first
        | exact Or.inl (enterState_animation _ _ _ _ _)
        | (refine Or.inr ⟨rfl, ?_⟩; omega)

/-- Witness for claim C10: a concrete non-hovering bee entering hover gets
radius at least 3, and the concrete expired hovering bee (radius 3,
counter 20, duration 10) transitions to fly. -/
theorem claim_c10_witness :
    (beeBase.animation ≠ AnimationType.hover ∧
      3 ≤ (Bee.enterState 0 0 AnimationType.hover none beeBase).hoverRadius) ∧
    (beeHoverExpired.animation = AnimationType.hover ∧ 3 ≤ beeHoverExpired.hoverRadius ∧
      0 ≤ beeHoverExpired.stateCounter ∧
      ((Bee.updateBee oracleZero frandZero beeHoverExpired).animation = AnimationType.fly ∨
        ((Bee.updateBee oracleZero frandZero beeHoverExpired).animation = AnimationType.hover ∧
          (Bee.updateBee oracleZero frandZero beeHoverExpired).stateCounter <
            (if (Bee.updateBee oracleZero frandZero beeHoverExpired).stateDuration = 0 then 120
             else (Bee.updateBee oracleZero frandZero beeHoverExpired).stateDuration)))) :=
  ⟨⟨by decide, claim_c10_hover_exits_to_fly.1 0 0 none beeBase (by decide)⟩,
   ⟨rfl, by norm_num [beeHoverExpired, beeBase], by norm_num [beeHoverExpired, beeBase],
    claim_c10_hover_exits_to_fly.2 oracleZero frandZero beeHoverExpired rfl
      (by norm_num [beeHoverExpired, beeBase]) (by norm_num [beeHoverExpired, beeBase])⟩⟩

theorem enterState_targetX (d1 d2 : ℚ) (next : AnimationType) (dur : Option ℤ) (b : Bee) :
    (Bee.enterState d1 d2 next dur b).targetX = b.targetX := by
  unfold Bee.enterState
  by_cases h : next = b.animation
  · rw [if_pos h]; rcases dur with _ | d <;> rfl
  · rw [if_neg h]; cases next <;> rfl

theorem enterState_targetY (d1 d2 : ℚ) (next : AnimationType) (dur : Option ℤ) (b : Bee) :
    (Bee.enterState d1 d2 next dur b).targetY = b.targetY := by
  unfold Bee.enterState
  by_cases h : next = b.animation
  · rw [if_pos h]; rcases dur with _ | d <;> rfl
  · rw [if_neg h]; cases next <;> rfl

theorem enterState_theta (d1 d2 : ℚ) (next : AnimationType) (dur : Option ℤ) (b : Bee) :
    (Bee.enterState d1 d2 next dur b).theta = b.theta := by
  unfold Bee.enterState
  by_cases h : next = b.animation
  · rw [if_pos h]; rcases dur with _ | d <;> rfl
  · rw [if_neg h]; cases next <;> rfl

theorem scarePass_getElem (o : Oracle) (x y rad : ℚ) (rnd : ℕ → ScareRand) :
    ∀ (bees : List Bee) (i k : ℕ),
      (scarePass o x y rad rnd i bees)[k]? =
        (bees[k]?).map (fun b => scareOne o x y rad (rnd (i + k)) b) := by
  intro bees
  induction bees with
  | nil => intro i k; simp [scarePass]
  | cons b bs ih =>
      intro i k
      cases k with
      | zero => simp [scarePass]
      | succ k =>
          simp only [scarePass, List.getElem?_cons_succ, ih (i + 1) k]
          have : i + 1 + k = i + (k + 1) := by omega
          rw [this]

/-- Claim C7: every bee within the scare radius of a click point ends the
click handler with a target set, a heading equal to the bearing directly
away from the click point plus a jitter of magnitude at most 0.15 radians,
and an animation mode of takeoff or fly. -/
theorem claim_c7_click_scare (o : Oracle) (beeSize x y : ℚ) (rnd : ℕ → ScareRand)
    (bees : List Bee) (i : ℕ) (bi : Bee) (hbi : bees[i]? = some bi)
    (hj0 : 0 ≤ (rnd i).jitter) (hj1 : (rnd i).jitter ≤ 1)
    (hdist : hypotLe (bi.x - x) (bi.y - y) (scareRadiusOf beeSize) = true) :
    ∃ nb, (handleClickScare o beeSize x y rnd bees)[i]? = some nb ∧
      nb.hasTarget = true ∧
      (nb.animation = AnimationType.takeoff ∨ nb.animation = AnimationType.fly) ∧
      ∃ jit : ℚ, |jit| ≤ 0.15 ∧ nb.theta = o.atan2 (bi.y - y) (bi.x - x) + jit := by
  refine ⟨scareOne o x y (scareRadiusOf beeSize) (rnd i) bi, ?_, ?_, ?_, ?_⟩
  · rw [handleClickScare, scarePass_getElem, hbi]
    simp
  · simp only [scareOne, hdist, ite_true]
    split_ifs
    · rw [Bee.hasTarget, enterState_targetX, enterState_targetY]
      rfl
    · rfl
  · simp only [scareOne, hdist, ite_true]
    split_ifs with hcond
    · exact Or.inl (enterState_animation _ _ _ _ _)
    · rcases not_and_or.mp hcond with h | h
      · exact Or.inr (not_not.mp h)
      · exact Or.inl (not_not.mp h)
  · refine ⟨((rnd i).jitter - 0.5) * 0.3, ?_, ?_⟩
    · rw [abs_le]
      constructor <;> nlinarith
    · simp only [scareOne, hdist, ite_true]
      split_ifs
      · rw [enterState_theta]; rfl
      · rfl

/-- Witness for claim C7: a single bee at the click point itself (distance
0, radius 120) is scared into takeoff with the away bearing plus jitter
0. -/
theorem claim_c7_witness :
    ([beeBase][0]? = some beeBase) ∧
      (0 : ℚ) ≤ scareRandHalf.jitter ∧ scareRandHalf.jitter ≤ 1 ∧
      hypotLe (beeBase.x - 0) (beeBase.y - 0) (scareRadiusOf 30) = true ∧
      (∃ nb, (handleClickScare oracleZero 30 0 0 (fun _ => scareRandHalf) [beeBase])[0]? = some nb ∧
        nb.hasTarget = true ∧
        (nb.animation = AnimationType.takeoff ∨ nb.animation = AnimationType.fly) ∧
        ∃ jit : ℚ, |jit| ≤ 0.15 ∧
          nb.theta = oracleZero.atan2 (beeBase.y - 0) (beeBase.x - 0) + jit) :=
  ⟨rfl, by norm_num [scareRandHalf], by norm_num [scareRandHalf],
   by norm_num [hypotLe, beeBase, scareRadiusOf],
   claim_c7_click_scare oracleZero 30 0 0 (fun _ => scareRandHalf) [beeBase] 0 beeBase rfl
     (by norm_num [scareRandHalf]) (by norm_num [scareRandHalf])
     (by norm_num [hypotLe, beeBase, scareRadiusOf])⟩

theorem jsRound_intCast (n : ℤ) : jsRound (n : ℚ) = n := by
  unfold jsRound
  rw [add_comm, Int.floor_add_int]
  norm_num

theorem axialRound_intCast (q r : ℤ) : axialRound (q : ℚ) (r : ℚ) = (q, r) := by
  have hy : jsRound (-(r : ℚ) - (q : ℚ)) = -r - q := by
    have hcast : (-(r : ℚ) - (q : ℚ)) = ((-r - q : ℤ) : ℚ) := by push_cast; ring
    rw [hcast, jsRound_intCast]
  have hd1 : |((q : ℤ) : ℚ) - (q : ℚ)| = 0 := by simp
  have hd2 : |((r : ℤ) : ℚ) - (r : ℚ)| = 0 := by simp
  have hd3 : |((-r - q : ℤ) : ℚ) - (-(r : ℚ) - (q : ℚ))| = 0 := by
    push_cast
    ring_nf
    simp
  simp only [axialRound, jsRound_intCast, hy, hd1, hd2, hd3]
  rw [if_neg (by simp), if_neg (by simp)]
  refine Prod.ext ?_ ?_
  · show -r - (-r - q) = q
    ring
  · rfl

theorem foldl_nearestFold_keep (x y : ℚ) (c : Honeycomb) (l : List (Option Honeycomb)) :
    l.foldl (nearestFold x y) (some (c, 0)) = some (c, 0) := by
  induction l with
  | nil => rfl
  | cons o rest ih =>
      rw [List.foldl_cons]
      cases o with
      | none => exact ih
      | some cell =>
          have hnn : ¬ ((cell.x - x) * (cell.x - x) + (cell.y - y) * (cell.y - y) < 0) := by
            push_neg
            have h1 := mul_self_nonneg (cell.x - x)
            have h2 := mul_self_nonneg (cell.y - y)
            linarith
          simp only [nearestFold, if_neg hnn]
          exact ih

/-- Claim C5: for every cell present in the grid, the continuous inverse
conversion of its exact canvas centre followed by cube rounding returns its
own integer axial pair, and the fast nearest-cell lookup at that centre
returns the very same cell at (squared) distance 0. -/
theorem claim_c5_nearest_roundtrip (grid : HexGrid) (s sqrt3 : ℚ)
    (hs : 0 < s) (h3 : 0 < sqrt3) (hwf : gridWF grid s sqrt3)
    (q r : ℤ) (c : Honeycomb) (hc : grid (q, r) = some c) :
    axialRound (xyToAxial s sqrt3 (cellX s r) (cellY s sqrt3 q r)).1
        (xyToAxial s sqrt3 (cellX s r) (cellY s sqrt3 q r)).2 = (q, r) ∧
    getNearestCellToPointFast grid s sqrt3 (cellX s r) (cellY s sqrt3 q r) =
      some (c, 0) := by
  have hsne : s ≠ 0 := hs.ne'
  have h3ne : sqrt3 ≠ 0 := h3.ne'
  have haxial : xyToAxial s sqrt3 (cellX s r) (cellY s sqrt3 q r) = ((q : ℚ), (r : ℚ)) := by
    refine Prod.ext ?_ ?_
    · show cellY s sqrt3 q r / (sqrt3 * s) - cellX s r / (s * 2 * 0.75) / 2 = (q : ℚ)
      unfold cellX cellY
      field_simp
      ring
    · show cellX s r / (s * 2 * 0.75) = (r : ℚ)
      unfold cellX
      field_simp
  have hround := axialRound_intCast q r
  obtain ⟨hcq, hcr, hcx, hcy⟩ := hwf q r c hc
  constructor
  · rw [haxial]
    exact hround
  · unfold getNearestCellToPointFast
    rw [haxial]
    simp only [hround]
    rw [hc]
    rw [List.foldl_cons]
    have hstep : nearestFold (cellX s r) (cellY s sqrt3 q r) none (some c) = some (c, 0) := by
      simp [nearestFold, hcx, hcy]
    rw [hstep]
    exact foldl_nearestFold_keep _ _ _ _

/-- Witness for claim C5 on the concrete one-cell grid (cell size 15, the
symbolic sqrt 3 taken as 2). -/
theorem claim_c5_witness :
    (0 : ℚ) < 15 ∧ (0 : ℚ) < 2 ∧ gridOne (0, 0) = some cell00 ∧
      (axialRound (xyToAxial 15 2 (cellX 15 0) (cellY 15 2 0 0)).1
          (xyToAxial 15 2 (cellX 15 0) (cellY 15 2 0 0)).2 = (0, 0) ∧
        getNearestCellToPointFast gridOne 15 2 (cellX 15 0) (cellY 15 2 0 0) =
          some (cell00, 0)) :=
  ⟨by norm_num, by norm_num, rfl,
   claim_c5_nearest_roundtrip gridOne 15 2 (by norm_num) (by norm_num)
     (by
       intro q r c h
       simp only [gridOne] at h
       split at h
       · rename_i hp
         obtain ⟨hq, hr⟩ := Prod.mk.injEq .. ▸ hp
         cases h
         subst hq hr
         refine ⟨rfl, rfl, ?_, ?_⟩ <;> norm_num [cell00, cellX, cellY]
       · cases h)
     0 0 cell00 rfl⟩

theorem ensureClusterPool_getElem (fps : ℚ) (sr : SpawnRand) (size : ℕ)
    (cs : List ClusterState) (k : ℕ) (hk : k < cs.length) :
    (ensureClusterPool fps sr size cs)[k]? = cs[k]? := by
  unfold ensureClusterPool
  rw [List.getElem?_append, if_pos hk]

/-- Claim C3 (amended): the auto-spawn path never reseeds a pooled cluster
whose cooldown counter is still positive: if Hive.spawnOneClusterIfAllowed
turns the k-th pool entry from inactive to active, that entry entered the
call with cooldownCounter at most 0.  (The user click path carries no such
guard; see the counterexample.) -/
theorem claim_c3_auto_spawn_respects_cooldown (sr : SpawnRand) (h : HiveState)
    (k : ℕ) (pre c2 : ClusterState)
    (hk : h.clusters[k]? = some pre) (hpre : pre.active = false)
    (hpost : (h.spawnOneClusterIfAllowed sr).clusters[k]? = some c2)
    (hact : c2.active = true) :
    pre.cooldownCounter ≤ 0 := by
  have hklen : k < h.clusters.length := by
    by_contra hcon
    push_neg at hcon
    rw [List.getElem?_eq_none hcon] at hk
    cases hk
  have hens : (ensureClusterPool h.fps sr h.clusterCap.toNat h.clusters)[k]? = some pre := by
    rw [ensureClusterPool_getElem _ _ _ _ _ hklen]
    exact hk
  simp only [HiveState.spawnOneClusterIfAllowed] at hpost
  split_ifs at hpost with hcap hstag
  · rw [hk] at hpost
    cases hpost
    rw [hpre] at hact
    cases hact
  · rw [hk] at hpost
    cases hpost
    rw [hpre] at hact
    cases hact
  · rcases hfi : (ensureClusterPool h.fps sr h.clusterCap.toNat h.clusters).findIdx?
        (fun c => !c.active) with _ | idx
    · rw [hfi] at hpost
      dsimp only at hpost
      rw [hens] at hpost
      cases hpost
      rw [hpre] at hact
      cases hact
    · rw [hfi] at hpost
      dsimp only at hpost
      rcases hgi : (ensureClusterPool h.fps sr h.clusterCap.toNat h.clusters)[idx]? with _ | inactive
      · rw [hgi] at hpost
        dsimp only at hpost
        rw [hens] at hpost
        cases hpost
        rw [hpre] at hact
        cases hact
      · rw [hgi] at hpost
        dsimp only at hpost
        split_ifs at hpost with hcool
        · rcases hcc : sr.cellChoice with _ | cell
          · rw [hcc] at hpost
            dsimp only at hpost
            rw [hens] at hpost
            cases hpost
            rw [hpre] at hact
            cases hact
          · rw [hcc] at hpost
            dsimp only at hpost
            split_ifs at hpost with hcellact
            · rw [hens] at hpost
              cases hpost
              rw [hpre] at hact
              cases hact
            · by_cases hkidx : k = idx
              · subst hkidx
                rw [hens] at hgi
                cases hgi
                exact hcool
              · rw [List.getElem?_set_ne (fun he => hkidx he.symm)] at hpost
                rw [hens] at hpost
                cases hpost
                rw [hpre] at hact
                cases hact
        · rw [hens] at hpost
          cases hpost
          rw [hpre] at hact
          cases hact

/-- Claim C3, counterexample: the user click path reseeds a cooling
cluster.  The concrete pool holds one inactive cluster with 900 cooldown
frames remaining, yet a click on the origin cell reactivates it
immediately, because Hive.handleClick takes the first inactive pool entry
without consulting cooldownCounter. -/
theorem claim_c3_counterexample :
    hiveCooling.clusters.map (fun c => (c.active, decide (0 < c.cooldownCounter))) =
        [(false, true)] ∧
      (hiveCooling.handleClickSpawn 2 spawnRandZero 0 0).clusters.map (fun c => c.active) =
        [true] := by
  constructor
  · norm_num [hiveCooling, clusterCooling]
  · norm_num [HiveState.handleClickSpawn, HiveState.clusterCap, getClusterCap,
      HiveState.activeClusterCount, HiveState.activeClusterSizes, ensureClusterPool,
      getNearestCellToPointFast, xyToAxial, axialRound, jsRound, nearestFold,
      List.findIdx?, ClusterState.resetCluster, randomWithin20Percent,
      hiveCooling, clusterCooling, spawnRandZero, gridOne, cell00]

/-- Witness for claim C3: the auto-spawn path on a pool entry whose
cooldown has reached 0 does reseed it, and the theorem applies. -/
theorem claim_c3_witness :
    hiveReady.clusters[0]? = some clusterReady ∧ clusterReady.active = false ∧
      (∃ c2, (hiveReady.spawnOneClusterIfAllowed spawnRandCell).clusters[0]? = some c2 ∧
        c2.active = true) ∧
      clusterReady.cooldownCounter ≤ 0 := by
  have heval : ∃ c2, (hiveReady.spawnOneClusterIfAllowed spawnRandCell).clusters[0]? = some c2 ∧
      c2.active = true := by
    refine ⟨ClusterState.resetCluster 0 cell00 false 120 clusterReady, ?_, rfl⟩
    norm_num [HiveState.spawnOneClusterIfAllowed, HiveState.clusterCap, getClusterCap,
      HiveState.activeClusterCount, HiveState.activeClusterSizes, ensureClusterPool,
      List.findIdx?, hiveReady, hiveCooling, clusterReady, clusterCooling,
      spawnRandCell, spawnRandZero, cell00]
  obtain ⟨c2, hpost, hact⟩ := heval
  exact ⟨rfl, rfl, ⟨c2, hpost, hact⟩,
    claim_c3_auto_spawn_respects_cooldown spawnRandCell hiveReady 0 clusterReady c2
      rfl rfl hpost hact⟩

theorem proxAction_ground (ctx : ProxCtx) (pr : ProxRand) (beeA : Bee) :
    (proxAction ctx 0 pr beeA).animation = AnimationType.blocked := by
  unfold proxAction
  rw [if_neg (by omega)]
  split_ifs with hb
  · exact enterState_animation _ _ _ _ _
  · exact not_ne_iff.mp hb

theorem scanCands_cases (ctx : ProxCtx) (scale : ℚ) (layerA : ℤ) (pr : ProxRand)
    (beeA : Bee) (i : ℕ) (l : List ℕ) :
    scanCands ctx scale layerA pr beeA i l = (beeA, false) ∨
    scanCands ctx scale layerA pr beeA i l = (proxAction ctx layerA pr beeA, true) := by
  induction l with
  | nil => exact Or.inl rfl
  | cons a rest ih =>
      simp only [scanCands]
      split_ifs
      · exact Or.inr rfl
      · exact ih

theorem scanOffsets_cases (ctx : ProxCtx) (scale : ℚ) (layerA : ℤ) (pr : ProxRand)
    (beeA : Bee) (i : ℕ) (cx cy : ℤ) (offs : List (ℤ × ℤ)) :
    scanOffsets ctx scale layerA pr beeA i cx cy offs = (beeA, false) ∨
    scanOffsets ctx scale layerA pr beeA i cx cy offs = (proxAction ctx layerA pr beeA, true) := by
  induction offs with
  | nil => exact Or.inl rfl
  | cons o rest ih =>
      simp only [scanOffsets]
      rcases scanCands_cases ctx scale layerA pr beeA i
          (binIndices ctx.bees ctx.thresh (cx + o.1, cy + o.2, layerA)) with h | h <;>
        rw [h]
      · simpa using ih
      · simp

theorem resolveOne_cases (ctx : ProxCtx) (pr : ProxRand) (b : Bee) (i : ℕ) :
    resolveOne ctx pr b i = b ∨
    resolveOne ctx pr b i = proxAction ctx (layerOf b) pr b := by
  unfold resolveOne
  split_ifs
  · exact Or.inl rfl
  · exact Or.inl rfl
  · exact Or.inl rfl
  · dsimp only
    rcases scanOffsets_cases ctx (if layerOf b = 0 then 1 else 0.8) (layerOf b) pr b i
        ⌊b.x / ctx.thresh⌋ ⌊b.y / ctx.thresh⌋ neighbourOffsets with h | h <;> rw [h]
    · exact Or.inl rfl
    · exact Or.inr rfl

theorem scanCands_handles (ctx : ProxCtx) (scale : ℚ) (layerA : ℤ) (pr : ProxRand)
    (beeA : Bee) (i : ℕ) (l : List ℕ) (j : ℕ) (hj : j ∈ l)
    (hq : proxQualifies ctx scale beeA i j = true) :
    (scanCands ctx scale layerA pr beeA i l).2 = true := by
  induction l with
  | nil => cases hj
  | cons a rest ih =>
      simp only [scanCands]
      split_ifs with ha
      · rfl
      · rcases List.mem_cons.mp hj with he | hm
        · exact absurd (he ▸ hq) ha
        · exact ih hm

theorem scanOffsets_handles (ctx : ProxCtx) (scale : ℚ) (layerA : ℤ) (pr : ProxRand)
    (beeA : Bee) (i : ℕ) (cx cy : ℤ) (offs : List (ℤ × ℤ)) (o : ℤ × ℤ) (ho : o ∈ offs)
    (hbin : (scanCands ctx scale layerA pr beeA i
        (binIndices ctx.bees ctx.thresh (cx + o.1, cy + o.2, layerA))).2 = true) :
    (scanOffsets ctx scale layerA pr beeA i cx cy offs).2 = true := by
  induction offs with
  | nil => cases ho
  | cons a rest ih =>
      simp only [scanOffsets]
      split_ifs with ha
      · exact ha
      · rcases List.mem_cons.mp ho with he | hm
        · exact absurd (he ▸ hbin) ha
        · exact ih hm

theorem scanOffsets_fst_of_handled (ctx : ProxCtx) (scale : ℚ) (layerA : ℤ)
    (pr : ProxRand) (beeA : Bee) (i : ℕ) (cx cy : ℤ) (offs : List (ℤ × ℤ))
    (h : (scanOffsets ctx scale layerA pr beeA i cx cy offs).2 = true) :
    (scanOffsets ctx scale layerA pr beeA i cx cy offs).1 = proxAction ctx layerA pr beeA := by
  rcases scanOffsets_cases ctx scale layerA pr beeA i cx cy offs with hc | hc <;> rw [hc]
  rw [hc] at h
  cases h

theorem hypotLt_bounds (dx dy t : ℚ) (h : hypotLt dx dy t = true) :
    0 < t ∧ |dx| < t ∧ |dy| < t := by
  unfold hypotLt at h
  rw [Bool.and_eq_true, decide_eq_true_eq, decide_eq_true_eq] at h
  obtain ⟨ht, hsq⟩ := h
  refine ⟨ht, ?_, ?_⟩
  · nlinarith [abs_nonneg dx, abs_mul_abs_self dx, mul_self_nonneg dy]
  · nlinarith [abs_nonneg dy, abs_mul_abs_self dy, mul_self_nonneg dx]

theorem hypotLt_symm (a b c d t : ℚ) :
    hypotLt (a - b) (c - d) t = hypotLt (b - a) (d - c) t := by
  unfold hypotLt
  have h1 : (a - b) * (a - b) = (b - a) * (b - a) := by ring
  have h2 : (c - d) * (c - d) = (d - c) * (d - c) := by ring
  rw [h1, h2]

theorem floor_div_close (bin u v : ℚ) (hbin : 0 < bin) (h : |u - v| < bin) :
    -1 ≤ ⌊v / bin⌋ - ⌊u / bin⌋ ∧ ⌊v / bin⌋ - ⌊u / bin⌋ ≤ 1 := by
  rw [abs_lt] at h
  have key : ∀ a b : ℚ, a < b + bin → ⌊a / bin⌋ ≤ ⌊b / bin⌋ + 1 := by
    intro a b hab
    have hab2 : a ≤ b + bin := hab.le
    have h3 : (b + bin) / bin = b / bin + 1 := by
      rw [add_div, div_self hbin.ne']
    have h4 : a / bin ≤ b / bin + 1 := by
      rw [← h3]
      gcongr
    calc ⌊a / bin⌋ ≤ ⌊b / bin + 1⌋ := Int.floor_le_floor h4
      _ = ⌊b / bin⌋ + 1 := Int.floor_add_one _
  constructor
  · have := key u v (by linarith)
    omega
  · have := key v u (by linarith)
    omega

theorem mem_binIndices (bees : List Bee) (bin : ℚ) (k : ℤ × ℤ × ℤ) (j : ℕ) (b : Bee)
    (hb : bees[j]? = some b) (hk : binKey bin b = k) : j ∈ binIndices bees bin k := by
  have hj : j < bees.length := by
    by_contra hcon
    push_neg at hcon
    rw [List.getElem?_eq_none hcon] at hb
    cases hb
  unfold binIndices
  rw [List.mem_filter]
  refine ⟨List.mem_range.mpr hj, ?_⟩
  dsimp only
  rw [hb]
  simp [hk]

theorem resolveOne_blocked (ctx : ProxCtx) (pr : ProxRand) (i j : ℕ) (bi bj : Bee)
    (hbj : ctx.bees[j]? = some bj) (hij : i ≠ j)
    (hg1 : ¬ 0 < bi.minStateFrames) (hg2 : ¬ 0 < bi.proximityCooldown)
    (hg3 : bi.animation ≠ AnimationType.turn)
    (hlayi : layerOf bi = 0) (hlayj : layerOf bj = 0)
    (hdist : hypotLt (bj.x - bi.x) (bj.y - bi.y) ctx.thresh = true)
    (hface : ctx.facing bi bj = true) :
    (resolveOne ctx pr bi i).animation = AnimationType.blocked := by
  obtain ⟨hth, hax, hay⟩ := hypotLt_bounds _ _ _ hdist
  have hq : proxQualifies ctx 1 bi i j = true := by
    unfold proxQualifies
    rw [if_neg (Ne.symm hij)]
    rw [hbj]
    dsimp only
    rw [mul_one, hdist, hface]
    rfl
  have hdx := floor_div_close ctx.thresh bi.x bj.x hth (by
    have : bj.x - bi.x = -(bi.x - bj.x) := by ring
    rw [← abs_neg, ← this]
    exact hax)
  have hdy := floor_div_close ctx.thresh bi.y bj.y hth (by
    have : bj.y - bi.y = -(bi.y - bj.y) := by ring
    rw [← abs_neg, ← this]
    exact hay)
  have ho : (⌊bj.x / ctx.thresh⌋ - ⌊bi.x / ctx.thresh⌋,
      ⌊bj.y / ctx.thresh⌋ - ⌊bi.y / ctx.thresh⌋) ∈ neighbourOffsets := by
    have hx3 : ⌊bj.x / ctx.thresh⌋ - ⌊bi.x / ctx.thresh⌋ = -1 ∨
        ⌊bj.x / ctx.thresh⌋ - ⌊bi.x / ctx.thresh⌋ = 0 ∨
        ⌊bj.x / ctx.thresh⌋ - ⌊bi.x / ctx.thresh⌋ = 1 := by omega
    have hy3 : ⌊bj.y / ctx.thresh⌋ - ⌊bi.y / ctx.thresh⌋ = -1 ∨
        ⌊bj.y / ctx.thresh⌋ - ⌊bi.y / ctx.thresh⌋ = 0 ∨
        ⌊bj.y / ctx.thresh⌋ - ⌊bi.y / ctx.thresh⌋ = 1 := by omega
    rcases hx3 with hx | hx | hx <;> rcases hy3 with hy | hy | hy <;>
      rw [hx, hy] <;> decide
  have hkey : binKey ctx.thresh bj =
      (⌊bi.x / ctx.thresh⌋ + (⌊bj.x / ctx.thresh⌋ - ⌊bi.x / ctx.thresh⌋),
       ⌊bi.y / ctx.thresh⌋ + (⌊bj.y / ctx.thresh⌋ - ⌊bi.y / ctx.thresh⌋), 0) := by
    unfold binKey
    rw [hlayj]
    refine Prod.ext (by dsimp only; omega) (Prod.ext (by dsimp only; omega) rfl)
  have hmem := mem_binIndices ctx.bees ctx.thresh _ j bj hbj hkey
  have hcands := scanCands_handles ctx 1 0 pr bi i _ j hmem hq
  have hoffs := scanOffsets_handles ctx 1 0 pr bi i
    ⌊bi.x / ctx.thresh⌋ ⌊bi.y / ctx.thresh⌋ neighbourOffsets
    (⌊bj.x / ctx.thresh⌋ - ⌊bi.x / ctx.thresh⌋,
     ⌊bj.y / ctx.thresh⌋ - ⌊bi.y / ctx.thresh⌋) ho hcands
  have hfst := scanOffsets_fst_of_handled ctx 1 0 pr bi i
    ⌊bi.x / ctx.thresh⌋ ⌊bi.y / ctx.thresh⌋ neighbourOffsets hoffs
  unfold resolveOne
  rw [if_neg hg1, if_neg hg2, if_neg hg3]
  dsimp only
  rw [hlayi, if_pos rfl]
  rw [hfst]
  exact proxAction_ground ctx pr bi

theorem proximityPassGo_getElem (ctx : ProxCtx) (rnd : ℕ → ProxRand) :
    ∀ (l : List Bee) (i0 k : ℕ),
      (proximityPassGo ctx rnd i0 l)[k]? =
        (l[k]?).map (fun b => resolveOne ctx (rnd (i0 + k)) b (i0 + k)) := by
  intro l
  induction l with
  | nil => intro i0 k; simp [proximityPassGo]
  | cons b bs ih =>
      intro i0 k
      cases k with
      | zero => simp [proximityPassGo]
      | succ k =>
          simp only [proximityPassGo, List.getElem?_cons_succ, ih (i0 + 1) k]
          have : i0 + 1 + k = i0 + (k + 1) := by omega
          rw [this]

/-- Claim C6: two distinct grounded bees, mutually within the proximity
threshold and mutually facing, with neither inside a dwell lock, proximity
cooldown or the turn state, both end one full proximity-resolution pass in
the blocked state (in particular at least one of the two does); and every
bee of the pass receives at most one resolution action: its output state is
either its input state or the input state with a single proximity action
applied. -/
theorem claim_c6_proximity_blocks (ctx : ProxCtx) (rnd : ℕ → ProxRand)
    (i j : ℕ) (bi bj : Bee)
    (hbi : ctx.bees[i]? = some bi) (hbj : ctx.bees[j]? = some bj) (hij : i ≠ j)
    (hg1 : ¬ 0 < bi.minStateFrames) (hg2 : ¬ 0 < bi.proximityCooldown)
    (hg3 : bi.animation ≠ AnimationType.turn)
    (hg4 : ¬ 0 < bj.minStateFrames) (hg5 : ¬ 0 < bj.proximityCooldown)
    (hg6 : bj.animation ≠ AnimationType.turn)
    (hlayi : layerOf bi = 0) (hlayj : layerOf bj = 0)
    (hdist : hypotLt (bj.x - bi.x) (bj.y - bi.y) ctx.thresh = true)
    (hface1 : ctx.facing bi bj = true) (hface2 : ctx.facing bj bi = true) :
    (∃ bi2, (proximityPass ctx rnd)[i]? = some bi2 ∧
        bi2.animation = AnimationType.blocked) ∧
    (∃ bj2, (proximityPass ctx rnd)[j]? = some bj2 ∧
        bj2.animation = AnimationType.blocked) ∧
    (∀ (k : ℕ) (bk : Bee), ctx.bees[k]? = some bk →
        ∃ bk2, (proximityPass ctx rnd)[k]? = some bk2 ∧
          (bk2 = bk ∨ bk2 = proxAction ctx (layerOf bk) (rnd k) bk)) := by
  have hdist2 : hypotLt (bi.x - bj.x) (bi.y - bj.y) ctx.thresh = true := by
    rw [hypotLt_symm]
    exact hdist
  refine ⟨⟨resolveOne ctx (rnd i) bi i, ?_, ?_⟩,
          ⟨resolveOne ctx (rnd j) bj j, ?_, ?_⟩, ?_⟩
  · rw [proximityPass, proximityPassGo_getElem, hbi]
    simp
  · exact resolveOne_blocked ctx (rnd i) i j bi bj hbj hij hg1 hg2 hg3 hlayi hlayj
      hdist hface1
  · rw [proximityPass, proximityPassGo_getElem, hbj]
    simp
  · exact resolveOne_blocked ctx (rnd j) j i bj bi hbi (fun he => hij he.symm)
      hg4 hg5 hg6 hlayj hlayi hdist2 hface2
  · intro k bk hbk
    refine ⟨resolveOne ctx (rnd k) bk k, ?_, resolveOne_cases ctx (rnd k) bk k⟩
    rw [proximityPass, proximityPassGo_getElem, hbk]
    simp

/-- Witness for claim C6: two concrete grounded walking bees ten pixels
apart under threshold 45, with an always-true facing oracle. -/
theorem claim_c6_witness :
    ctxTwoBees.bees[0]? = some beeBase ∧ ctxTwoBees.bees[1]? = some beeTen ∧
      hypotLt (beeTen.x - beeBase.x) (beeTen.y - beeBase.y) ctxTwoBees.thresh = true ∧
      layerOf beeBase = 0 ∧ layerOf beeTen = 0 ∧
      ((∃ bi2, (proximityPass ctxTwoBees (fun _ => proxRandZero))[0]? = some bi2 ∧
          bi2.animation = AnimationType.blocked) ∧
        (∃ bj2, (proximityPass ctxTwoBees (fun _ => proxRandZero))[1]? = some bj2 ∧
          bj2.animation = AnimationType.blocked) ∧
        (∀ (k : ℕ) (bk : Bee), ctxTwoBees.bees[k]? = some bk →
          ∃ bk2, (proximityPass ctxTwoBees (fun _ => proxRandZero))[k]? = some bk2 ∧
            (bk2 = bk ∨
              bk2 = proxAction ctxTwoBees (layerOf bk) ((fun _ => proxRandZero) k) bk))) :=
  ⟨rfl, rfl,
   by norm_num [hypotLt, beeTen, beeBase, ctxTwoBees],
   by norm_num [layerOf, jsRound, beeBase],
   by norm_num [layerOf, jsRound, beeTen, beeBase],
   claim_c6_proximity_blocks ctxTwoBees (fun _ => proxRandZero) 0 1 beeBase beeTen rfl rfl
     (by decide) (by decide) (by decide) (by decide) (by decide) (by decide) (by decide)
     (by norm_num [layerOf, jsRound, beeBase])
     (by norm_num [layerOf, jsRound, beeTen, beeBase])
     (by norm_num [hypotLt, beeTen, beeBase, ctxTwoBees]) rfl rfl⟩
